import Mathlib

/-!
Shallow embedding of the TrapScript temporal pattern engine (trapscript.py):
rational time, the event model, the pattern combinators, the cycle-latched
tick scheduler, scale/note resolution, the mini-notation tokenizer and
recursive-descent processing, and the bus registry.  Python `Fraction`
values are modelled by `ℚ` (the source's `Fraction` stores exact reduced
rationals); `int(Fraction)` is floor (the source implements `__int__` as
`_n // _d`), while Python `int(float)` truncates toward zero.  Integer
`//` and `%` are floor division and sign-of-divisor mod, which for the
positive divisors used here agree with Lean's `Int` `/` and `%`.
-/

namespace Trap

/-- Python `int()` applied to a nonnegative-or-negative real quantity:
truncation toward zero (used on `ppq * cycle_beats` in `Pattern.tick`). -/
def truncInt (q : ℚ) : Int := if q < 0 then -⌊-q⌋ else ⌊q⌋

/-- Python 3 `round` to the nearest integer, ties to even (used by the
cycle-beats snap in `Pattern.tick`). -/
def pyRound (q : ℚ) : Int :=
  let f := ⌊q⌋
  let r := q - (f : ℚ)
  if r < 1/2 then f
  else if 1/2 < r then f + 1
  else if f % 2 = 0 then f else f + 1

/-- Rounding of a positive rational to IEEE binary64 precision:
53 significant bits for normal magnitudes, fixed 2^(-1074) spacing in
the subnormal range, round to nearest with ties to even, `none` when
the rounded value reaches 2^1024 (Python raises OverflowError there).
`Int.log 2 x` is the binade exponent: 2^e <= x < 2^(e+1). -/
def pyFloatPos (x : ℚ) : Option ℚ :=
  let ulp : Int := max (Int.log 2 x - 52) (-1074)
  let m : Int := pyRound (x / (2 : ℚ) ^ ulp)
  let v : ℚ := (m : ℚ) * (2 : ℚ) ^ ulp
  if (2 : ℚ) ^ (1024 : Int) ≤ v then none else some v

/-- Python float conversion of an exact rational, as performed by
`float(int)`, by int/int true division and by the source Fraction's
`__float__` (`self._n / self._d`): the nearest double, ties to even;
`none` models the OverflowError raised when the value is out of double
range.  Subnormal underflow to 0.0 is silent, as in Python. -/
def pyFloat (q : ℚ) : Option ℚ :=
  if q = 0 then some 0
  else if q < 0 then (pyFloatPos (-q)).map (fun v => -v)
  else pyFloatPos q

/-- The source comparison of a Fraction with a Python int
(Fraction.__eq__, trapscript.py lines 1047-1049): both sides are
converted to float and the doubles compared.  Where either conversion
overflows, the source raises OverflowError; this model returns false
there, and every general theorem over arcs carries hypotheses that
exclude that regime. -/
def floatEqInt (q : ℚ) (n : Int) : Bool :=
  match pyFloat q, pyFloat ((n : ℚ)) with
  | some a, some b => decide (a = b)
  | _, _ => false

/-- The `factor == 0` test of `fast`: the factor Fraction compared with
the int 0 through float conversion, so factors that underflow to 0.0
count as zero. -/
def floatEqZero (q : ℚ) : Bool := floatEqInt q 0

/-- An Event (Hap): a value, the optional full logical span, and the
queried slice (trapscript.py, class Event). -/
structure Event (α : Type) where
  value : α
  whole : Option (ℚ × ℚ)
  part : ℚ × ℚ
deriving DecidableEq

/-- Event.has_onset from the source: a whole is present and starts
exactly where the part starts. -/
def Event.hasOnset (e : Event α) : Bool :=
  match e.whole with
  | none => false
  | some w => decide (w.1 = e.part.1)

/-- A query arc: half-open rational window. -/
abbrev Arc := ℚ × ℚ

/-- A Pattern is a function from arcs to event lists (trapscript.py,
class Pattern: `query`). -/
abbrev Pattern (α : Type) := Arc → List (Event α)

/-- Pattern.silence: empty pattern. -/
def Pattern.silence : Pattern α := fun _ => []

/-- Pattern.pure: one event per cycle covered by the arc
(trapscript.py lines 1825-1844).  `int(arc[0])` on the source's
`Fraction` is floor.  The arc-end integrality test
`arc[1] == int(arc[1])` is Fraction-versus-int equality, which the
source decides by converting both sides to float, so an end within half
an ulp of an integer counts as integral. -/
def Pattern.pure (v : α) : Pattern α := fun arc =>
  let cs : Int := ⌊arc.1⌋
  let ce : Int := if floatEqInt arc.2 ⌊arc.2⌋ then ⌊arc.2⌋ else ⌊arc.2⌋ + 1
  ((List.range (ce - cs).toNat).map (fun k : Nat => cs + (k : Int))).filterMap (fun c : Int =>
    let ps := max arc.1 (c : ℚ)
    let pe := min arc.2 ((c : ℚ) + 1)
    if ps < pe then some ⟨v, some ((c : ℚ), (c : ℚ) + 1), (ps, pe)⟩ else none)

/-- Pattern.fast: compress time by a factor; a factor whose float
conversion is 0.0 degenerates to silence (trapscript.py lines
1851-1874).  The zero test goes through Fraction.__eq__ with an int, a
float-mediated comparison; for factors out of double range the source
raises OverflowError inside that test, a case floatEqInt maps to false
and theorems exclude by hypothesis. -/
def Pattern.fast (factor : ℚ) (p : Pattern α) : Pattern α :=
  if floatEqZero factor then Pattern.silence
  else fun arc =>
    (p (arc.1 * factor, arc.2 * factor)).map (fun e =>
      ⟨e.value, e.whole.map (fun w => (w.1 / factor, w.2 / factor)),
       (e.part.1 / factor, e.part.2 / factor)⟩)

/-- The source Fraction division `a / b`: raises ZeroDivisionError when
the divisor is zero (modelled as `none`). -/
def fracDiv (a b : ℚ) : Option ℚ :=
  if b = 0 then none else some (a / b)

/-- Pattern.slow: `fast(Fraction(1) / Fraction(factor))`
(trapscript.py lines 1876-1882).  The result is `none` when the
division raises ZeroDivisionError (factor 0), and also when the inner
`fast` call's zero test raises OverflowError because 1/factor is out of
double range. -/
def Pattern.slow (factor : ℚ) (p : Pattern α) : Option (Pattern α) :=
  (fracDiv 1 factor).bind (fun g =>
    match pyFloat g with
    | none => none
    | some _ => some (Pattern.fast g p))

/-- Pattern.repeatCycles (trapscript.py lines 1884-1931). -/
def Pattern.repeatCycles (n : Int) (p : Pattern α) : Pattern α :=
  if n ≤ 0 then Pattern.silence
  else if n = 1 then p
  else fun arc =>
    let cycle : Int := ⌊arc.1⌋
    let source_cycle := cycle / n
    let delta : ℚ := ((cycle - source_cycle * n : Int) : ℚ)
    (p (arc.1 - delta, arc.2 - delta)).map (fun e =>
      ⟨e.value, e.whole.map (fun w => (w.1 + delta, w.2 + delta)),
       (e.part.1 + delta, e.part.2 + delta)⟩)

/-- A source of random draws, one rational per queried arc and event
index: the explicit stand-in for the process-wide random source that
`degrade` consumes in the Python code. -/
abbrev DrawFn := Arc → Nat → ℚ

/-- Pattern.degrade: keep each event of the query when the associated
draw is below the probability (trapscript.py lines 1933-1955). -/
def Pattern.degrade (D : DrawFn) (prob : ℚ) (p : Pattern α) : Pattern α :=
  fun arc =>
    ((p arc).enum.filterMap (fun ie =>
      if D arc ie.1 < prob then some ie.2 else none))

/-- The `_sequence` combinator: equal subdivision of each covered cycle
(trapscript.py lines 2058-2115). -/
def sequence (pats : List (Pattern α)) : Pattern α :=
  match pats with
  | [] => Pattern.silence
  | [p] => p
  | _ =>
    fun arc =>
      let n := pats.length
      (pats.enum.flatMap (fun ip =>
        let i := ip.1
        let pat := ip.2
        let child_start : ℚ := (i : ℚ) / (n : ℚ)
        let child_end : ℚ := ((i : ℚ) + 1) / (n : ℚ)
        let cs : Int := ⌊arc.1⌋
        let ce : Int := if floatEqInt arc.2 ⌊arc.2⌋ then ⌊arc.2⌋ else ⌊arc.2⌋ + 1
        ((List.range (ce - cs).toNat).map (fun k : Nat => cs + (k : Int))).flatMap (fun c : Int =>
          let slot_start := (c : ℚ) + child_start
          let slot_end := (c : ℚ) + child_end
          let qs := max arc.1 slot_start
          let qe := min arc.2 slot_end
          if qs < qe then
            (pat ((qs - slot_start) * n + (c : ℚ), (qe - slot_start) * n + (c : ℚ))).map
              (fun e =>
                ⟨e.value,
                 e.whole.map (fun w =>
                   (slot_start + (w.1 - (c : ℚ)) / (n : ℚ),
                    slot_start + (w.2 - (c : ℚ)) / (n : ℚ))),
                 (slot_start + (e.part.1 - (c : ℚ)) / (n : ℚ),
                  slot_start + (e.part.2 - (c : ℚ)) / (n : ℚ))⟩)
          else [])))

/-- The `_stack` combinator: query all children with the same arc and
concatenate (trapscript.py lines 2142-2160). -/
def stack (pats : List (Pattern α)) : Pattern α :=
  match pats with
  | [] => Pattern.silence
  | [p] => p
  | _ => fun arc => pats.flatMap (fun p => p arc)

/-- The `_weighted_sequence` combinator (trapscript.py lines 2163-2232). -/
def weighted_sequence (elements : List (Pattern α × Int)) : Pattern α :=
  match elements with
  | [] => Pattern.silence
  | _ =>
    let total : Int := (elements.map (fun e => e.2)).sum
    if total = 0 then Pattern.silence
    else
      fun arc =>
        let positions :=
          (elements.foldl
            (fun (st : ℚ × List (Pattern α × ℚ × ℚ)) pw =>
              let start := st.1
              let stop := st.1 + (pw.2 : ℚ) / (total : ℚ)
              (stop, st.2 ++ [(pw.1, start, stop)]))
            ((0 : ℚ), [])).2
        let cs : Int := ⌊arc.1⌋
        let ce : Int := if floatEqInt arc.2 ⌊arc.2⌋ then ⌊arc.2⌋ else ⌊arc.2⌋ + 1
        positions.flatMap (fun pse =>
          let pat := pse.1
          let child_start := pse.2.1
          let child_end := pse.2.2
          let dur := child_end - child_start
          if dur = 0 then []
          else
            ((List.range (ce - cs).toNat).map (fun k : Nat => cs + (k : Int))).flatMap (fun c : Int =>
              let slot_start := (c : ℚ) + child_start
              let slot_end := (c : ℚ) + child_end
              let qs := max arc.1 slot_start
              let qe := min arc.2 slot_end
              if qs < qe then
                (pat ((qs - slot_start) * (1 / dur) + (c : ℚ),
                      (qe - slot_start) * (1 / dur) + (c : ℚ))).map (fun e =>
                  ⟨e.value,
                   e.whole.map (fun w =>
                     (slot_start + (w.1 - (c : ℚ)) * dur,
                      slot_start + (w.2 - (c : ℚ)) * dur)),
                   (slot_start + (e.part.1 - (c : ℚ)) * dur,
                    slot_start + (e.part.2 - (c : ℚ)) * dur)⟩)
              else []))

/-- The `_slowcat` combinator: the child indexed by the floor of the arc
start modulo the child count answers the whole, unmodified arc
(trapscript.py lines 2122-2139). -/
def slowcat (pats : List (Pattern α)) : Pattern α :=
  match pats with
  | [] => Pattern.silence
  | [p] => p
  | ps => fun arc =>
    (ps.getD ((⌊arc.1⌋ % (ps.length : Int)).toNat) Pattern.silence) arc

/-- The value carried by an event of a parsed pattern: a bare integer
(scale degree / semitone offset), a decimal number, an `AbsoluteNote`
wrapping a MIDI pitch, or `rest` for Python `None`. -/
inductive PValue
  | int (n : Int)
  | flt (q : ℚ)
  | note (midi : Int)
  | rest
deriving DecidableEq

/-- Whether a parsed value is the rest marker (Python `None`). -/
def PValue.isRest : PValue → Bool
  | PValue.rest => true
  | _ => false

/-- The per-instance playback state fields of class Pattern
(trapscript.py lines 1807-1815). -/
structure PlaybackState where
  running : Bool
  phase : ℚ
  lastTick : Option Int
  latchedCycleBeats : Option ℚ
  pendingCycleBeats : Option ℚ

/-- Clamp the incoming cycle-beats to the 0.01 floor
(trapscript.py lines 2003-2005). -/
def clampCycleBeats (cb : ℚ) : ℚ := if cb < 1/100 then 1/100 else cb

/-- Snap the cycle-beats to the nearest integer when within 0.001
(trapscript.py lines 2008-2010). -/
def snapCycleBeats (cb : ℚ) : ℚ :=
  let r := pyRound cb
  if |cb - (r : ℚ)| < 1/1000 then (r : ℚ) else cb

/-- The full preprocessing `tick` applies to its cycle-beats argument. -/
def processCycleBeats (cb : ℚ) : ℚ := snapCycleBeats (clampCycleBeats cb)

/-- Pattern.tick (trapscript.py lines 1982-2052): advance the playback
state by the elapsed steps and return the onset events of the
one-increment arc.  The result is `none` exactly when
`Fraction(1, int(ppq * active_cycle_beats))` raises ZeroDivisionError.
The source forms `ppq * active_cycle_beats` in float (line 2026); here
the product is exact, and the theorems about the increment carry the
hypothesis that the product is a pyFloat fixed point, under which the
source's float product coincides with this exact product. -/
def Pattern.tick (p : Pattern PValue) (s : PlaybackState)
    (currentTick : Int) (ppq : Int) (cycleBeatsArg : ℚ) :
    Option (PlaybackState × List (Event PValue)) :=
  if s.running = false then some (s, [])
  else
    let cb := processCycleBeats cycleBeatsArg
    let s1 := match s.lastTick with
      | none => { s with
          lastTick := some currentTick, phase := 0,
          latchedCycleBeats := some cb, pendingCycleBeats := some cb }
      | some _ => s
    let s2 := { s1 with pendingCycleBeats := some cb }
    let active := s2.latchedCycleBeats.getD cb
    let d := truncInt ((ppq : ℚ) * active)
    if d = 0 then none
    else
      let inc : ℚ := 1 / (d : ℚ)
      let cycleBefore := ⌊s2.phase⌋
      let lt := s2.lastTick.getD currentTick
      let elapsed := currentTick - lt
      let s3 := if 0 < elapsed then
          { s2 with phase := s2.phase + inc * (elapsed : ℚ),
                    lastTick := some currentTick }
        else s2
      let cycleAfter := ⌊s3.phase⌋
      let s4 := if cycleBefore < cycleAfter then
          { s3 with latchedCycleBeats := s3.pendingCycleBeats }
        else s3
      let evs := p (s4.phase, s4.phase + inc)
      some (s4, evs.filter (fun e => e.hasOnset && !(e.value.isRest)))

/-- Clamp helper `_clamp` used by note resolution. -/
def clampInt (x lo hi : Int) : Int := max lo (min x hi)

/-- Chroma value of a (lower-case) note letter (`_CHROMAS`). -/
def chromaOf (c : Char) : Int :=
  if c = 'c' then 0 else if c = 'd' then 2 else if c = 'e' then 4
  else if c = 'f' then 5 else if c = 'g' then 7 else if c = 'a' then 9
  else 11

/-- Accidental semitone offset of one character (`_ACCIDENTALS`,
defaulting to 0 like `.get(c, 0)`). -/
def accidentalVal (c : Char) : Int :=
  if c = '#' then 1 else if c = 'b' then -1
  else if c = 's' then 1 else if c = 'f' then -1 else 0

/-- Sum of accidental offsets (`_get_accidental_offset`). -/
def accidentalOffset (cs : List Char) : Int :=
  cs.foldl (fun a c => a + accidentalVal c) 0

/-- Whether a character is a note letter, `[a-gA-G]`. -/
def isNoteLetter (c : Char) : Bool :=
  (decide ('a' ≤ c) && decide (c ≤ 'g')) || (decide ('A' ≤ c) && decide (c ≤ 'G'))

/-- Whether a character is an accidental, `[#bsf]`. -/
def isAccidental (c : Char) : Bool :=
  c = '#' || c = 'b' || c = 's' || c = 'f'

/-- Value of the digit list read in base 10. -/
def natOfDigits (cs : List Char) : Nat :=
  cs.foldl (fun a c => a * 10 + (c.toNat - 48)) 0

/-- Python `int` on a string of shape `-?digits`. -/
def intOfString (s : String) : Int :=
  match s.toList with
  | '-' :: r => -(natOfDigits r : Int)
  | cs => (natOfDigits cs : Int)

/-- The anchored note regex `^([a-gA-G])([#bsf]*)(-?[0-9]*)$` of
`_tokenize_note`: letter, greedy accidentals, optional signed octave
digits, and nothing left over.  Returns the three groups. -/
def matchFullNote (cs : List Char) : Option (Char × List Char × List Char) :=
  match cs with
  | [] => none
  | c :: rest =>
    if isNoteLetter c then
      let acc := rest.takeWhile isAccidental
      let r1 := rest.dropWhile isAccidental
      let octAndRest : List Char × List Char :=
        match r1 with
        | '-' :: r2 => ('-' :: r2.takeWhile Char.isDigit, r2.dropWhile Char.isDigit)
        | _ => (r1.takeWhile Char.isDigit, r1.dropWhile Char.isDigit)
      if octAndRest.2 = [] then some (c, acc, octAndRest.1) else none
    else none

/-- `_tokenize_note` (trapscript.py lines 1180-1206): the parsed
`(letter, accidentals, octave)` triple, `none` when the regex does not
match; `int("-")` on a bare minus raises ValueError. -/
def tokenize_note (s : String) : Except String (Option (Char × List Char × Option Int)) :=
  match matchFullNote s.toList with
  | none => Except.ok none
  | some (l, acc, oct) =>
    match oct with
    | [] => Except.ok (some (l.toLower, acc, none))
    | ['-'] => Except.error "invalid literal for int"
    | _ => Except.ok (some (l.toLower, acc, some (intOfString (String.mk oct))))

/-- `_note_to_midi` (trapscript.py lines 1214-1250): note name to MIDI
number with the given default octave, clamped to 0..127. -/
def note_to_midi (note : String) (default_octave : Int) : Except String Int :=
  match tokenize_note note with
  | Except.error e => Except.error e
  | Except.ok none => Except.error ("Invalid note format: " ++ note)
  | Except.ok (some (l, acc, oct)) =>
    let octave := oct.getD default_octave
    Except.ok (clampInt ((octave + 1) * 12 + chromaOf l + accidentalOffset acc) 0 127)

/-- Lower-case a string character by character (Python `str.lower` for
the ASCII strings used here). -/
def lowerString (s : String) : String := String.mk (s.toList.map Char.toLower)

/-- Python `str.split(sep)` for a one-character separator: split at
every occurrence, keeping empty parts. -/
def splitOnChar (sep : Char) : List Char → List (List Char)
  | [] => [[]]
  | c :: rest =>
    let r := splitOnChar sep rest
    if c = sep then [] :: r
    else
      match r with
      | h :: t => (c :: h) :: t
      | [] => [[c]]

/-- The scales registry (trapscript.py lines 187-214), keyed by
lower-case name. -/
def scalesTable : List (String × List Int) :=
  [("major", [0, 2, 4, 5, 7, 9, 11]),
   ("minor", [0, 2, 3, 5, 7, 8, 10]),
   ("dorian", [0, 2, 3, 5, 7, 9, 10]),
   ("phrygian", [0, 1, 3, 5, 7, 8, 10]),
   ("lydian", [0, 2, 4, 6, 7, 9, 11]),
   ("mixolydian", [0, 2, 4, 5, 7, 9, 10]),
   ("locrian", [0, 1, 3, 5, 6, 8, 10]),
   ("pentatonic", [0, 2, 4, 7, 9]),
   ("minor_pentatonic", [0, 3, 5, 7, 10]),
   ("blues", [0, 3, 5, 6, 7, 10]),
   ("harmonic_minor", [0, 2, 3, 5, 7, 8, 11]),
   ("melodic_minor", [0, 2, 3, 5, 7, 9, 11]),
   ("diminished", [0, 2, 3, 5, 6, 8, 9, 11]),
   ("diminished_hw", [0, 1, 3, 4, 6, 7, 9, 10]),
   ("chromatic", [0, 1, 2, 3, 4, 5, 6, 7, 8, 9, 10, 11])]

/-- Registry lookup `scales.get(name)`: case-insensitive key. -/
def scalesGet (name : String) : Option (List Int) :=
  scalesTable.lookup (lowerString name)

/-- `_parse_scale` (trapscript.py lines 1264-1286): split on the colon,
look the scale name up, and resolve the root with default octave 3. -/
def parse_scale (s : String) : Except String (List Int × Int) :=
  match (splitOnChar ':' (lowerString s).toList).map String.mk with
  | [root_str, scale_name] =>
    match scalesGet scale_name with
    | none => Except.error ("Unknown scale: " ++ scale_name)
    | some intervals =>
      (note_to_midi root_str 3).map (fun r => (intervals, r))
  | _ => Except.error ("Invalid scale format: " ++ s)

/-- `_scale_degree_to_midi` (trapscript.py lines 1289-1315).  Python `//`
and `%` on integers are floor division and nonnegative mod for the
positive divisors used here, which Lean's `Int` `/` and `%` match.  An
empty interval list would raise ZeroDivisionError in Python; the
registry contains no empty scale, so that case is guarded off. -/
def scale_degree_to_midi (degree : Int) (intervals : List Int) (root : Int) : Int :=
  let N : Int := intervals.length
  if N = 0 then 0
  else root + intervals.getD ((degree % N).toNat) 0 + 12 * (degree / N)

/-- Token kinds of `_TOKEN_SPEC` (trapscript.py lines 1351-1366). -/
inductive TokType
  | NUMBER
  | NOTE
  | REST
  | LBRACK
  | RBRACK
  | LANGLE
  | RANGLE
  | STAR
  | SLASH
  | AT
  | BANG
  | QUESTION
  | COMMA
deriving DecidableEq

/-- Name of a token kind, as it appears in error messages. -/
def ttname : TokType → String
  | TokType.NUMBER => "NUMBER"
  | TokType.NOTE => "NOTE"
  | TokType.REST => "REST"
  | TokType.LBRACK => "LBRACK"
  | TokType.RBRACK => "RBRACK"
  | TokType.LANGLE => "LANGLE"
  | TokType.RANGLE => "RANGLE"
  | TokType.STAR => "STAR"
  | TokType.SLASH => "SLASH"
  | TokType.AT => "AT"
  | TokType.BANG => "BANG"
  | TokType.QUESTION => "QUESTION"
  | TokType.COMMA => "COMMA"

/-- A token: kind, matched text, and character position in the source
string (class Token). -/
structure Token where
  type : TokType
  value : String
  pos : Nat
deriving DecidableEq

/-- Greedy match of the `NUMBER` alternative `-?[0-9]+(\.[0-9]+)?` at the
start of the character list; the fractional part is kept only when at
least one digit follows the dot (regex backtracking). -/
def matchNumber (cs : List Char) : Option (List Char × List Char) :=
  let signAndRest : List Char × List Char :=
    match cs with
    | '-' :: r => (['-'], r)
    | _ => ([], cs)
  let sign := signAndRest.1
  let rest0 := signAndRest.2
  let ds := rest0.takeWhile Char.isDigit
  let rest1 := rest0.dropWhile Char.isDigit
  if ds = [] then none
  else
    match rest1 with
    | '.' :: r2 =>
      let ds2 := r2.takeWhile Char.isDigit
      if ds2 = [] then some (sign ++ ds, rest1)
      else some (sign ++ ds ++ '.' :: ds2, r2.dropWhile Char.isDigit)
    | _ => some (sign ++ ds, rest1)

/-- Greedy match of the `NOTE` alternative `[a-gA-G][#bsf]*-?[0-9]*` at
the start of the character list. -/
def matchNoteTok (cs : List Char) : Option (List Char × List Char) :=
  match cs with
  | [] => none
  | c :: rest =>
    if isNoteLetter c then
      let acc := rest.takeWhile isAccidental
      let r1 := rest.dropWhile isAccidental
      match r1 with
      | '-' :: r2 =>
        some (c :: acc ++ '-' :: r2.takeWhile Char.isDigit, r2.dropWhile Char.isDigit)
      | _ =>
        some (c :: acc ++ r1.takeWhile Char.isDigit, r1.dropWhile Char.isDigit)
    else none

/-- The single-character alternatives of the token spec; whitespace and
characters matching no alternative yield `none` and are skipped by the
scan, exactly as `re.finditer` skips unmatched characters. -/
def singleTok (c : Char) : Option TokType :=
  if c = '~' then some TokType.REST
  else if c = '-' then some TokType.REST
  else if c = '[' then some TokType.LBRACK
  else if c = ']' then some TokType.RBRACK
  else if c = '<' then some TokType.LANGLE
  else if c = '>' then some TokType.RANGLE
  else if c = '*' then some TokType.STAR
  else if c = '/' then some TokType.SLASH
  else if c = '@' then some TokType.AT
  else if c = '!' then some TokType.BANG
  else if c = '?' then some TokType.QUESTION
  else if c = ',' then some TokType.COMMA
  else none

/-- The scan loop of `_tokenize`: ordered alternation (NUMBER, then
NOTE, then the single-character tokens) at each position; positions that
match nothing are skipped without error.  Fuel is one more than the
character count; every step consumes at least one character. -/
def tokenizeAux : Nat → List Char → Nat → List Token
  | 0, _, _ => []
  | _ + 1, [], _ => []
  | fuel + 1, cs, pos =>
    match matchNumber cs with
    | some (tokcs, rest) =>
      ⟨TokType.NUMBER, String.mk tokcs, pos⟩ :: tokenizeAux fuel rest (pos + tokcs.length)
    | none =>
      match matchNoteTok cs with
      | some (tokcs, rest) =>
        ⟨TokType.NOTE, String.mk tokcs, pos⟩ :: tokenizeAux fuel rest (pos + tokcs.length)
      | none =>
        match cs with
        | [] => []
        | c :: rest =>
          match singleTok c with
          | some tt => ⟨tt, String.mk [c], pos⟩ :: tokenizeAux fuel rest (pos + 1)
          | none => tokenizeAux fuel rest (pos + 1)

/-- `_tokenize` (trapscript.py lines 1372-1377). -/
def tokenize (code : String) : List Token :=
  tokenizeAux (code.toList.length + 1) code.toList 0

/-- Exact rational value of a decimal digit string with an optional
fractional part (no sign). -/
def ratOfDecimalAux (cs : List Char) : ℚ :=
  let ip := cs.takeWhile (fun c => !(c = '.'))
  match cs.dropWhile (fun c => !(c = '.')) with
  | '.' :: fp => (natOfDigits ip : ℚ) + (natOfDigits fp : ℚ) / ((10 : ℚ) ^ fp.length)
  | _ => (natOfDigits ip : ℚ)

/-- Exact rational value of a `NUMBER` token text: models the source's
`Fraction(string)` construction, which converts decimal strings exactly
by scaling with the matching power of ten. -/
def ratOfDecimal (s : String) : ℚ :=
  match s.toList with
  | '-' :: r => -(ratOfDecimalAux r)
  | cs => ratOfDecimalAux cs

/-- Python `int(float(string))` on a `NUMBER` token text: truncation of
its exact decimal value toward zero. -/
def intOfNumberTok (s : String) : Int := truncInt (ratOfDecimal s)

/-- Error text of `consume` on a kind mismatch
(trapscript.py line 2255). -/
def mismatchMsg (expected : TokType) (t : Token) : String :=
  "Expected " ++ ttname expected ++ ", got " ++ ttname t.type ++
    " at position " ++ toString t.pos

/-- `_MiniParser.consume` (trapscript.py lines 2249-2257), on the list
of not-yet-consumed tokens. -/
def consumeTok (expected : Option TokType) (ts : List Token) :
    Except String (Token × List Token) :=
  match ts with
  | [] => Except.error "Unexpected end of input"
  | t :: rest =>
    match expected with
    | some et =>
      if t.type = et then Except.ok (t, rest) else Except.error (mismatchMsg et t)
    | none => Except.ok (t, rest)

mutual

/-- `_MiniParser.parse` (trapscript.py lines 2259-2273): one layer, then
further comma-separated layers, stacked. -/
def parseP (D : DrawFn) : Nat → List Token → Except String (Pattern PValue × List Token)
  | 0, _ => Except.error "parser ran out of fuel"
  | fuel + 1, ts => do
    let r1 ← parse_layer D fuel ts
    let rs ← parsePMore D fuel r1.2 [r1.1]
    match rs.2.reverse with
    | [p] => Except.ok (p, rs.1)
    | layers => Except.ok (stack layers, rs.1)

/-- The comma loop inside `parse`, accumulating layers in reverse. -/
def parsePMore (D : DrawFn) : Nat → List Token → List (Pattern PValue) →
    Except String (List Token × List (Pattern PValue))
  | 0, _, _ => Except.error "parser ran out of fuel"
  | fuel + 1, ts, acc =>
    match ts with
    | t :: rest =>
      if t.type = TokType.COMMA then do
        let r ← parse_layer D fuel rest
        parsePMore D fuel r.2 (r.1 :: acc)
      else Except.ok (ts, acc)
    | [] => Except.ok (ts, acc)

/-- `_MiniParser.parse_layer` (trapscript.py lines 2275-2297): collect
weighted elements, then build a plain or weighted sequence. -/
def parse_layer (D : DrawFn) : Nat → List Token →
    Except String (Pattern PValue × List Token)
  | 0, _ => Except.error "parser ran out of fuel"
  | fuel + 1, ts => do
    let r ← parse_layer_elems D fuel ts []
    let elements := r.2.reverse
    let rest := r.1
    match elements with
    | [] => Except.ok (Pattern.silence, rest)
    | _ =>
      if elements.any (fun pw => !(pw.2 = 1)) then
        Except.ok (weighted_sequence elements, rest)
      else
        match elements with
        | [pw] => Except.ok (pw.1, rest)
        | _ => Except.ok (sequence (elements.map (fun pw => pw.1)), rest)

/-- The element loop inside `parse_layer`: keep parsing elements while
the next token is not a closing bracket, closing angle, or comma. -/
def parse_layer_elems (D : DrawFn) : Nat → List Token →
    List (Pattern PValue × Int) →
    Except String (List Token × List (Pattern PValue × Int))
  | 0, _, _ => Except.error "parser ran out of fuel"
  | fuel + 1, ts, acc =>
    match ts with
    | [] => Except.ok (ts, acc)
    | t :: _ =>
      if t.type = TokType.RBRACK ∨ t.type = TokType.RANGLE ∨ t.type = TokType.COMMA then
        Except.ok (ts, acc)
      else do
        let r ← parse_element D fuel false ts
        parse_layer_elems D fuel r.2 (r.1.reverse ++ acc)

/-- `_MiniParser.parse_element` (trapscript.py lines 2299-2362): an atom
followed by modifiers; returns the expanded list of (pattern, weight)
pairs. -/
def parse_element (D : DrawFn) : Nat → Bool → List Token →
    Except String (List (Pattern PValue × Int) × List Token)
  | 0, _, _ => Except.error "parser ran out of fuel"
  | fuel + 1, expand, ts => do
    let ra ← parse_atom D fuel ts
    let rm ← parse_mods D fuel expand ra.1 1 1 ra.2
    let pat := rm.1
    let weight := rm.2.1
    let replication := rm.2.2.1
    let rest := rm.2.2.2
    if replication ≤ 1 then Except.ok ([(pat, weight)], rest)
    else Except.ok (List.replicate replication (pat, weight), rest)

/-- The modifier loop inside `parse_element`, carrying the current
pattern, weight and replication count. -/
def parse_mods (D : DrawFn) : Nat → Bool → Pattern PValue → Int → Nat → List Token →
    Except String (Pattern PValue × Int × Nat × List Token)
  | 0, _, _, _, _, _ => Except.error "parser ran out of fuel"
  | fuel + 1, expand, pat, weight, replication, ts =>
    match ts with
    | [] => Except.ok (pat, weight, replication, ts)
    | t :: rest =>
      if t.type = TokType.QUESTION then
        match rest with
        | t2 :: rest2 =>
          if t2.type = TokType.NUMBER then
            parse_mods D fuel expand (Pattern.degrade D (ratOfDecimal t2.value) pat)
              weight replication rest2
          else
            parse_mods D fuel expand (Pattern.degrade D (1/2) pat) weight replication rest
        | [] => parse_mods D fuel expand (Pattern.degrade D (1/2) pat) weight replication rest
      else if t.type = TokType.STAR then do
        let rn ← consumeTok (some TokType.NUMBER) rest
        parse_mods D fuel expand (Pattern.fast (ratOfDecimal rn.1.value) pat)
          weight replication rn.2
      else if t.type = TokType.SLASH then do
        let rn ← consumeTok (some TokType.NUMBER) rest
        match Pattern.slow (ratOfDecimal rn.1.value) pat with
        | some q => parse_mods D fuel expand q weight replication rn.2
        | none =>
          if ratOfDecimal rn.1.value = 0 then
            Except.error "Fraction denominator cannot be zero"
          else Except.error "int too large to convert to float"
      else if t.type = TokType.AT then do
        let rn ← consumeTok (some TokType.NUMBER) rest
        parse_mods D fuel expand pat (intOfNumberTok rn.1.value) replication rn.2
      else if t.type = TokType.BANG then do
        let rn ← consumeTok (some TokType.NUMBER) rest
        let num := intOfNumberTok rn.1.value
        if 0 < num then
          if expand then
            parse_mods D fuel expand pat weight num.toNat rn.2
          else
            parse_mods D fuel expand
              (Pattern.fast (num : ℚ) (Pattern.repeatCycles num pat)) num replication rn.2
        else
          parse_mods D fuel expand Pattern.silence 0 0 rn.2
      else Except.ok (pat, weight, replication, ts)

/-- `_MiniParser.parse_atom` (trapscript.py lines 2364-2442): numbers,
note names, rests, bracketed groups, angle groups, and the silent
recovery of any other token (returned without consuming it). -/
def parse_atom (D : DrawFn) : Nat → List Token →
    Except String (Pattern PValue × List Token)
  | 0, _ => Except.error "parser ran out of fuel"
  | fuel + 1, ts =>
    match ts with
    | [] => Except.ok (Pattern.silence, ts)
    | t :: rest =>
      if t.type = TokType.NUMBER then
        if t.value.toList.contains '.' then
          Except.ok (Pattern.pure (PValue.flt (ratOfDecimal t.value)), rest)
        else
          Except.ok (Pattern.pure (PValue.int (intOfString t.value)), rest)
      else if t.type = TokType.NOTE then
        match note_to_midi t.value 3 with
        | Except.ok m => Except.ok (Pattern.pure (PValue.note m), rest)
        | Except.error e => Except.error e
      else if t.type = TokType.REST then
        Except.ok (Pattern.pure PValue.rest, rest)
      else if t.type = TokType.LBRACK then do
        let ri ← parseP D fuel rest
        let rb ← consumeTok (some TokType.RBRACK) ri.2
        Except.ok (ri.1, rb.2)
      else if t.type = TokType.LANGLE then do
        let re ← parse_angle_elems D fuel rest []
        let rb ← consumeTok (some TokType.RANGLE) re.1
        match re.2.reverse with
        | [] => Except.ok (Pattern.silence, rb.2)
        | [pw] => Except.ok (pw.1, rb.2)
        | elements =>
          let inner := sequence (elements.map (fun pw => pw.1))
          match Pattern.slow (elements.length : ℚ) inner with
          | some q => Except.ok (q, rb.2)
          | none =>
            if (elements.length : ℚ) = 0 then
              Except.error "Fraction denominator cannot be zero"
            else Except.error "int too large to convert to float"
      else
        Except.ok (Pattern.silence, ts)

/-- The element loop of the angle-bracket branch of `parse_atom`, with
replicate expansion enabled. -/
def parse_angle_elems (D : DrawFn) : Nat → List Token →
    List (Pattern PValue × Int) →
    Except String (List Token × List (Pattern PValue × Int))
  | 0, _, _ => Except.error "parser ran out of fuel"
  | fuel + 1, ts, acc =>
    match ts with
    | [] => Except.ok (ts, acc)
    | t :: _ =>
      if t.type = TokType.RANGLE ∨ t.type = TokType.COMMA then
        Except.ok (ts, acc)
      else do
        let r ← parse_element D fuel true ts
        parse_angle_elems D fuel r.2 (r.1.reverse ++ acc)

end

/-- `_parse_mini` (trapscript.py lines 2445-2451): an empty token stream
yields silence; otherwise run the recursive-descent parse.  Any token
left after the top-level parse is dropped, as in the source. -/
def parse_mini (D : DrawFn) (code : String) : Except String (Pattern PValue) :=
  match tokenize code with
  | [] => Except.ok Pattern.silence
  | toks => (parseP D (4 * toks.length + 8) toks).map (fun r => r.1)

/-- The fields of `BusRegistry` needed for release/history behaviour
(trapscript.py lines 1649-1737): the dict of active chains in insertion
order, the history as a most-recent-first list of
(release tick, chain batch) pairs, and the batch limit. -/
structure BusRegistry (α : Type) where
  active : List (Nat × α)
  history : List (Int × List α)
  historyLimit : Nat

/-- `BusRegistry.release` (trapscript.py lines 1700-1715): pop the
chain, append it to the newest batch when that batch carries the same
release tick, otherwise start a new batch in front, then drop batches
from the back while over the limit. -/
def BusRegistry.release (r : BusRegistry α) (voiceId : Nat) (releaseTick : Int) :
    BusRegistry α :=
  match r.active.lookup voiceId with
  | none => r
  | some chain =>
    let active2 := r.active.filter (fun p => !(p.1 = voiceId))
    let history2 :=
      match r.history with
      | (t0, batch) :: restBatches =>
        if t0 = releaseTick then (t0, batch ++ [chain]) :: restBatches
        else (releaseTick, [chain]) :: (t0, batch) :: restBatches
      | [] => [(releaseTick, [chain])]
    { r with active := active2, history := history2.take r.historyLimit }

/-- `BusRegistry.last` (trapscript.py lines 1729-1733): the chains of
the nth-most-recent release batch, or the empty list out of range. -/
def BusRegistry.last (r : BusRegistry α) (n : Nat) : List α :=
  if r.history.length ≤ n then [] else ((r.history.getD n (0, [])).2)

/-- Modelled from the spec: the per-cycle reading of `slowcat` claimed
by C7 — each cycle covered by the arc answered by that cycle's own
child, over the arc portion inside the cycle, with no time remapping.
Written from the claim's words, for comparison with `slowcat` above. -/
def slowcatPerCycle (pats : List (Pattern α)) : Pattern α := fun arc =>
  let n : Int := pats.length
  let cs : Int := ⌊arc.1⌋
  let ce : Int := if arc.2 = (⌊arc.2⌋ : ℚ) then ⌊arc.2⌋ else ⌊arc.2⌋ + 1
  ((List.range (ce - cs).toNat).map (fun k : Nat => cs + (k : Int))).flatMap (fun c : Int =>
    let qs := max arc.1 (c : ℚ)
    let qe := min arc.2 ((c : ℚ) + 1)
    if qs < qe then (pats.getD ((c % n).toNat) Pattern.silence) (qs, qe) else [])

/-- A fixed all-zero random source, used wherever a concrete `DrawFn`
is required. -/
def drawZero : DrawFn := fun _ _ => 0

/-- The note resolution performed for a NOTE atom by parse_atom
(trapscript.py line 2384): `_note_to_midi(tok.value)`, whose omitted
default-octave parameter is 3. -/
def mini_note_resolve (s : String) : Except String Int := note_to_midi s 3

/-- The root resolution performed by parse_scale
(trapscript.py line 1284): `_note_to_midi(root_str, default_octave=3)`. -/
def scale_root_resolve (s : String) : Except String Int := note_to_midi s 3

/-! ## Float rounding lemmas -/

/-- The binade exponent is determined by the two-sided power bound. -/
theorem int_log2_eq {x : ℚ} {e : Int} (h1 : (2 : ℚ) ^ e ≤ x)
    (h2 : x < (2 : ℚ) ^ (e + 1)) : Int.log 2 x = e := by
  have hb : (1 : ℕ) < 2 := by norm_num
  have hx : 0 < x := lt_of_lt_of_le (by positivity) h1
  have hcast : ((2 : ℕ) : ℚ) = (2 : ℚ) := by norm_num
  have hl : e ≤ Int.log 2 x := by
    have hm := Int.log_mono_right (b := 2) (by positivity : (0 : ℚ) < (2 : ℚ) ^ e) h1
    have hz : Int.log 2 ((2 : ℚ) ^ e) = e := by
      rw [show (2 : ℚ) = ((2 : ℕ) : ℚ) from by norm_num]
      exact Int.log_zpow hb e
    rwa [hz] at hm
  have hu : Int.log 2 x ≤ e := by
    by_contra hc
    push_neg at hc
    have h3 : (2 : ℚ) ^ (e + 1) ≤ (2 : ℚ) ^ (Int.log 2 x) :=
      zpow_le_zpow_right₀ (by norm_num) (by omega)
    have h4 : ((2 : ℕ) : ℚ) ^ (Int.log 2 x) ≤ x := Int.zpow_log_le_self hb hx
    rw [hcast] at h4
    linarith
  omega

/-- Upper bound on the binade exponent from an upper bound on the value. -/
theorem int_log2_lt {x : ℚ} {n : Int} (hx : 0 < x) (h : x < (2 : ℚ) ^ n) :
    Int.log 2 x < n := by
  by_contra hc
  push_neg at hc
  have h3 : (2 : ℚ) ^ n ≤ (2 : ℚ) ^ (Int.log 2 x) :=
    zpow_le_zpow_right₀ (by norm_num) hc
  have h4 : ((2 : ℕ) : ℚ) ^ (Int.log 2 x) ≤ x :=
    Int.zpow_log_le_self (by norm_num) hx
  rw [show ((2 : ℕ) : ℚ) = (2 : ℚ) from by norm_num] at h4
  linarith

/-- Lower bound on the binade exponent from a lower bound on the value. -/
theorem int_log2_ge {x : ℚ} {n : Int} (h : (2 : ℚ) ^ n ≤ x) :
    n ≤ Int.log 2 x := by
  have hm := Int.log_mono_right (b := 2) (by positivity : (0 : ℚ) < (2 : ℚ) ^ n) h
  have hz : Int.log 2 ((2 : ℚ) ^ n) = n := by
    rw [show (2 : ℚ) = ((2 : ℕ) : ℚ) from by norm_num]
    exact Int.log_zpow (by norm_num) n
  rwa [hz] at hm

/-- Half-even rounding of an integer is that integer. -/
theorem pyRound_intCast (n : Int) : pyRound ((n : ℚ)) = n := by
  norm_num [pyRound, Int.floor_intCast]

/-- Half-even rounding of a value in [0, 1/2) is zero. -/
theorem pyRound_of_lt_half {r : ℚ} (h0 : 0 ≤ r) (h1 : r < 1/2) :
    pyRound r = 0 := by
  have hf : ⌊r⌋ = 0 := by
    rw [Int.floor_eq_zero_iff]
    constructor
    · exact h0
    · linarith
  norm_num [pyRound, hf]
  intro hc
  linarith

/-- Half-even rounding is at least the floor. -/
theorem pyRound_ge_floor (r : ℚ) : ⌊r⌋ ≤ pyRound r := by
  rw [pyRound]
  split
  · omega
  · split
    · omega
    · split <;> omega

/-- A positive dyadic rational with a full-width 53-bit mantissa and an
in-range exponent is its own double rounding. -/
theorem pyFloatPos_dyadic (m k : Int) (hm1 : 2 ^ 52 ≤ m) (hm2 : m < 2 ^ 53)
    (hk1 : -1074 ≤ k) (hk2 : k ≤ 971) :
    pyFloatPos ((m : ℚ) * (2 : ℚ) ^ k) = some ((m : ℚ) * (2 : ℚ) ^ k) := by
  have hm1q : (2 : ℚ) ^ (52 : Int) ≤ (m : ℚ) := by
    rw [show ((2 : ℚ) ^ (52 : Int)) = (((2 ^ 52 : Int) : ℚ)) from by push_cast; norm_num]
    exact_mod_cast hm1
  have hm2q : (m : ℚ) < (2 : ℚ) ^ (53 : Int) := by
    rw [show ((2 : ℚ) ^ (53 : Int)) = (((2 ^ 53 : Int) : ℚ)) from by push_cast; norm_num]
    exact_mod_cast hm2
  have hkpos : (0 : ℚ) < (2 : ℚ) ^ k := by positivity
  have hmpos : (0 : ℚ) < (m : ℚ) := lt_of_lt_of_le (by positivity) hm1q
  have hlog : Int.log 2 ((m : ℚ) * (2 : ℚ) ^ k) = k + 52 := by
    refine int_log2_eq ?_ ?_
    · rw [show (k + 52 : Int) = 52 + k from by omega, zpow_add₀ (by norm_num : (2:ℚ) ≠ 0)]
      exact mul_le_mul_of_nonneg_right hm1q (le_of_lt hkpos)
    · rw [show (k + 52 + 1 : Int) = 53 + k from by omega,
        zpow_add₀ (by norm_num : (2:ℚ) ≠ 0)]
      exact mul_lt_mul_of_pos_right hm2q hkpos
  have hulp : max (Int.log 2 ((m : ℚ) * (2 : ℚ) ^ k) - 52) (-1074) = k := by
    rw [hlog]
    omega
  have hdiv : ((m : ℚ) * (2 : ℚ) ^ k) / (2 : ℚ) ^ k = (m : ℚ) :=
    mul_div_cancel_right₀ _ (by positivity)
  have hbound : ¬ ((2 : ℚ) ^ (1024 : Int) ≤ (m : ℚ) * (2 : ℚ) ^ k) := by
    push_neg
    calc (m : ℚ) * (2 : ℚ) ^ k < (2 : ℚ) ^ (53 : Int) * (2 : ℚ) ^ k :=
          mul_lt_mul_of_pos_right hm2q hkpos
      _ ≤ (2 : ℚ) ^ (53 : Int) * (2 : ℚ) ^ (971 : Int) := by
          have := zpow_le_zpow_right₀ (by norm_num : (1:ℚ) ≤ 2) hk2
          exact mul_le_mul_of_nonneg_left this (by positivity)
      _ = (2 : ℚ) ^ (1024 : Int) := by
          rw [← zpow_add₀ (by norm_num : (2:ℚ) ≠ 0)]
          norm_num
  rw [pyFloatPos]
  simp only [hulp, hdiv, pyRound_intCast]
  rw [if_neg hbound]

/-- A positive rational below half the smallest subnormal rounds to
zero. -/
theorem pyFloatPos_underflow {x : ℚ} (h0 : 0 < x)
    (h1 : x < (2 : ℚ) ^ (-1075 : Int)) : pyFloatPos x = some 0 := by
  have hlog : Int.log 2 x < -1075 := int_log2_lt h0 h1
  have hulp : max (Int.log 2 x - 52) (-1074) = (-1074 : Int) := by omega
  have hdiv : x / (2 : ℚ) ^ (-1074 : Int) < 1/2 := by
    rw [div_lt_iff (by positivity)]
    calc x < (2 : ℚ) ^ (-1075 : Int) := h1
      _ = 1/2 * (2 : ℚ) ^ (-1074 : Int) := by
          rw [show (-1075 : Int) = (-1) + (-1074) from by norm_num,
            zpow_add₀ (by norm_num : (2:ℚ) ≠ 0)]
          norm_num
  have hr : pyRound (x / (2 : ℚ) ^ (-1074 : Int)) = 0 :=
    pyRound_of_lt_half (by positivity) hdiv
  rw [pyFloatPos]
  simp only [hulp, hr]
  rw [if_neg (by norm_num)]
  norm_num

/-- A rational at or beyond 2^1024 overflows the double range. -/
theorem pyFloatPos_overflow {x : ℚ} (h1 : (2 : ℚ) ^ (1024 : Int) ≤ x) :
    pyFloatPos x = none := by
  have h0 : 0 < x := lt_of_lt_of_le (by positivity) h1
  have hge : (1024 : Int) ≤ Int.log 2 x := int_log2_ge h1
  have hulp : max (Int.log 2 x - 52) (-1074) = Int.log 2 x - 52 := by omega
  have hxlog : (2 : ℚ) ^ (Int.log 2 x) ≤ x := by
    have := Int.zpow_log_le_self (b := 2) (by norm_num) h0
    rwa [show ((2 : ℕ) : ℚ) = (2 : ℚ) from by norm_num] at this
  have hdiv : (2 : ℚ) ^ (52 : Int) ≤ x / (2 : ℚ) ^ (Int.log 2 x - 52) := by
    rw [le_div_iff (by positivity), ← zpow_add₀ (by norm_num : (2:ℚ) ≠ 0)]
    calc (2 : ℚ) ^ (52 + (Int.log 2 x - 52)) = (2 : ℚ) ^ (Int.log 2 x) := by
          congr 1
          omega
      _ ≤ x := hxlog
  have hm : (2 ^ 52 : Int) ≤ pyRound (x / (2 : ℚ) ^ (Int.log 2 x - 52)) := by
    refine le_trans ?_ (pyRound_ge_floor _)
    rw [Int.le_floor]
    calc ((2 ^ 52 : Int) : ℚ) = (2 : ℚ) ^ (52 : Int) := by push_cast; norm_num
      _ ≤ _ := hdiv
  have hbig : (2 : ℚ) ^ (1024 : Int)
      ≤ ((pyRound (x / (2 : ℚ) ^ (Int.log 2 x - 52)) : ℚ)) * (2 : ℚ) ^ (Int.log 2 x - 52) := by
    have hmq : ((2 : ℚ) ^ (52 : Int)) ≤ ((pyRound (x / (2 : ℚ) ^ (Int.log 2 x - 52)) : ℚ)) := by
      rw [show ((2 : ℚ) ^ (52 : Int)) = (((2 ^ 52 : Int) : ℚ)) from by push_cast; norm_num]
      exact_mod_cast hm
    calc (2 : ℚ) ^ (1024 : Int) ≤ (2 : ℚ) ^ (52 + (Int.log 2 x - 52)) := by
          refine zpow_le_zpow_right₀ (by norm_num) ?_
          omega
      _ = (2 : ℚ) ^ (52 : Int) * (2 : ℚ) ^ (Int.log 2 x - 52) := by
          rw [← zpow_add₀ (by norm_num : (2:ℚ) ≠ 0)]
      _ ≤ _ := mul_le_mul_of_nonneg_right hmq (by positivity)
  rw [pyFloatPos]
  simp only [hulp]
  rw [if_pos hbig]

/-- pyFloat on a positive rational is pyFloatPos. -/
theorem pyFloat_pos_eq {q : ℚ} (h0 : 0 < q) : pyFloat q = pyFloatPos q := by
  rw [pyFloat, if_neg (ne_of_gt h0), if_neg (not_lt.mpr (le_of_lt h0))]

/-- Zero converts to 0.0. -/
theorem pyFloat_zero : pyFloat (0 : ℚ) = some 0 := by
  rw [pyFloat, if_pos rfl]

/-- One is a double. -/
theorem pyFloat_one : pyFloat (1 : ℚ) = some 1 := by
  have h2 : (1 : ℚ) = ((2 ^ 52 : Int) : ℚ) * (2 : ℚ) ^ (-52 : Int) := by
    push_cast
    rw [zpow_neg]
    norm_num
  have hq := pyFloatPos_dyadic (2 ^ 52) (-52) (by norm_num) (by norm_num)
    (by norm_num) (by norm_num)
  rw [← h2] at hq
  rw [pyFloat_pos_eq (by norm_num)]
  exact hq

/-- Two is a double. -/
theorem pyFloat_two : pyFloat (2 : ℚ) = some 2 := by
  have h2 : (2 : ℚ) = ((2 ^ 52 : Int) : ℚ) * (2 : ℚ) ^ (-51 : Int) := by
    push_cast
    rw [zpow_neg]
    norm_num
  have hq := pyFloatPos_dyadic (2 ^ 52) (-51) (by norm_num) (by norm_num)
    (by norm_num) (by norm_num)
  rw [← h2] at hq
  rw [pyFloat_pos_eq (by norm_num)]
  exact hq

/-- Four is a double. -/
theorem pyFloat_four : pyFloat (4 : ℚ) = some 4 := by
  have h2 : (4 : ℚ) = ((2 ^ 52 : Int) : ℚ) * (2 : ℚ) ^ (-50 : Int) := by
    push_cast
    rw [zpow_neg]
    norm_num
  have hq := pyFloatPos_dyadic (2 ^ 52) (-50) (by norm_num) (by norm_num)
    (by norm_num) (by norm_num)
  rw [← h2] at hq
  rw [pyFloat_pos_eq (by norm_num)]
  exact hq

/-- One half is a double. -/
theorem pyFloat_half : pyFloat (1/2 : ℚ) = some (1/2) := by
  have h2 : (1/2 : ℚ) = ((2 ^ 52 : Int) : ℚ) * (2 : ℚ) ^ (-53 : Int) := by
    push_cast
    rw [zpow_neg]
    norm_num
  have hq := pyFloatPos_dyadic (2 ^ 52) (-53) (by norm_num) (by norm_num)
    (by norm_num) (by norm_num)
  rw [← h2] at hq
  rw [pyFloat_pos_eq (by norm_num)]
  exact hq

/-- The rational 1/10^400 underflows to 0.0. -/
theorem pyFloat_tiny : pyFloat (1 / 10 ^ 400 : ℚ) = some 0 := by
  rw [pyFloat_pos_eq (by positivity)]
  refine pyFloatPos_underflow (by positivity) ?_
  rw [zpow_neg]
  norm_num

/-- The rational 10^400 overflows the double range. -/
theorem pyFloat_huge : pyFloat ((10 : ℚ) ^ 400) = none := by
  rw [pyFloat_pos_eq (by positivity)]
  refine pyFloatPos_overflow ?_
  norm_num

/-- The arc-end test at the integer 2. -/
theorem floatEqInt_two : floatEqInt (2 : ℚ) 2 = true := by
  rw [floatEqInt]
  norm_num [pyFloat_two]

/-- The arc-end test at the integer 1. -/
theorem floatEqInt_one : floatEqInt (1 : ℚ) 1 = true := by
  rw [floatEqInt]
  norm_num [pyFloat_one]

/-- The arc-end test: 1/10^400 compares equal to the int 0 through
float conversion. -/
theorem floatEqInt_tiny_zero : floatEqInt (1 / 10 ^ 400 : ℚ) 0 = true := by
  rw [floatEqInt, pyFloat_tiny]
  rw [show (((0 : Int) : ℚ)) = (0 : ℚ) from by norm_num, pyFloat_zero]
  norm_num

/-- The zero test silences the underflowing factor 1/10^400. -/
theorem floatEqZero_tiny : floatEqZero (1 / 10 ^ 400 : ℚ) = true := by
  rw [floatEqZero]
  exact floatEqInt_tiny_zero

/-- The zero test accepts the exact zero factor. -/
theorem floatEqZero_zero : floatEqZero (0 : ℚ) = true := by
  rw [floatEqZero, floatEqInt]
  rw [show (((0 : Int) : ℚ)) = (0 : ℚ) from by norm_num, pyFloat_zero]
  norm_num

/-- The zero test rejects the factor 2. -/
theorem floatEqZero_two : floatEqZero (2 : ℚ) = false := by
  rw [floatEqZero, floatEqInt, pyFloat_two]
  rw [show (((0 : Int) : ℚ)) = (0 : ℚ) from by norm_num, pyFloat_zero]
  norm_num

/-- The zero test rejects the factor 1/2. -/
theorem floatEqZero_half : floatEqZero (1/2 : ℚ) = false := by
  rw [floatEqZero, floatEqInt, pyFloat_half]
  rw [show (((0 : Int) : ℚ)) = (0 : ℚ) from by norm_num, pyFloat_zero]
  norm_num

/-! ## Claim theorems -/

/-- C4 counterexample: contrary to the claim that a zero-valued `slow`
factor is handled locally without any error, `slow 0` on a concrete
pattern raises ZeroDivisionError (modelled as `none`): the
`Fraction(1)/Fraction(factor)` division fails before `fast` is reached. -/
theorem slow_zero_counterexample :
    Pattern.slow (0 : ℚ) (Pattern.pure (PValue.int 0)) = none ∧ fracDiv 1 0 = none := by
  exact ⟨rfl, rfl⟩

/-- C4 (amended): `fast` with factor 0 yields silence (the empty event
list on every arc) for every pattern, while `slow` with factor 0 raises
ZeroDivisionError to the caller (result `none`) for every pattern. -/
theorem fast_zero_silence_slow_zero_error (p : Pattern α) :
    (∀ arc : Arc, Pattern.fast 0 p arc = []) ∧ Pattern.slow 0 p = none := by
  constructor
  · intro arc
    simp [Pattern.fast, floatEqZero_zero, Pattern.silence]
  · simp [Pattern.slow, fracDiv]

/-- C8 counterexample: for scale c5:major (root 72, major intervals),
degree -1 resolves to 71, not to 83 as the claim states. -/
theorem scale_degree_neg_one_counterexample :
    parse_scale "c5:major" = Except.ok ([0, 2, 4, 5, 7, 9, 11], 72)
    ∧ scale_degree_to_midi (-1) [0, 2, 4, 5, 7, 9, 11] 72 = 71
    ∧ ¬ scale_degree_to_midi (-1) [0, 2, 4, 5, 7, 9, 11] 72 = 83 := by
  exact ⟨rfl, by decide, by decide⟩

/-- C8 (amended): degree-mode resolution follows
root + intervals[d mod N] + 12 * (d div N) with floored division; for
scale c5:major (root 72) degree 7 resolves to 84 and degree -1 resolves
to 71, below the root. -/
theorem scale_degree_formula (d : Int) (ivs : List Int) (root : Int)
    (h : ivs ≠ []) :
    scale_degree_to_midi d ivs root
      = root + ivs.getD ((d % (ivs.length : Int)).toNat) 0 + 12 * (d / (ivs.length : Int))
    ∧ scale_degree_to_midi 7 [0, 2, 4, 5, 7, 9, 11] 72 = 84
    ∧ scale_degree_to_midi (-1) [0, 2, 4, 5, 7, 9, 11] 72 = 71
    ∧ scale_degree_to_midi (-1) [0, 2, 4, 5, 7, 9, 11] 72 < 72 := by
  refine ⟨?_, by decide, by decide, by decide⟩
  have hN : (ivs.length : Int) ≠ 0 := by
    simpa using h
  simp [scale_degree_to_midi, hN]

/-- Witness for scale_degree_formula at the major scale, root 72,
degree -1. -/
theorem scale_degree_formula_witness :
    ([0, 2, 4, 5, 7, 9, 11] : List Int) ≠ []
    ∧ (scale_degree_to_midi (-1) [0, 2, 4, 5, 7, 9, 11] 72
        = 72 + ([0, 2, 4, 5, 7, 9, 11] : List Int).getD
            (((-1 : Int) % (([0, 2, 4, 5, 7, 9, 11] : List Int).length : Int)).toNat) 0
          + 12 * ((-1 : Int) / (([0, 2, 4, 5, 7, 9, 11] : List Int).length : Int))
       ∧ scale_degree_to_midi 7 [0, 2, 4, 5, 7, 9, 11] 72 = 84
       ∧ scale_degree_to_midi (-1) [0, 2, 4, 5, 7, 9, 11] 72 = 71
       ∧ scale_degree_to_midi (-1) [0, 2, 4, 5, 7, 9, 11] 72 < 72) :=
  ⟨by decide, scale_degree_formula (-1) [0, 2, 4, 5, 7, 9, 11] 72 (by decide)⟩

/-- C2 counterexample: the input consisting of the single unknown
character percent does not fail with a syntax error; the tokenizer
drops the character, and the parse succeeds with a pattern that plays
nothing. -/
theorem parse_unknown_token_counterexample :
    tokenize "%" = []
    ∧ (parse_mini drawZero "%").isOk = true
    ∧ (parse_mini drawZero "%").toOption.map (fun p => p ((0 : ℚ), 1)) = some [] := by
  exact ⟨by decide, rfl, rfl⟩

/-- C2 (amended): an empty token stream yields silence; characters
matching no token alternative are skipped silently by the tokenizer
(here a percent sign between two numbers); syntax errors naming the
expected kind, the found kind and its source position are raised and
propagated to the caller at the parser's expectation points — for
example a modifier not followed by its required NUMBER token, or a
bracketed group not closed by its required RBRACK. -/
theorem parse_errors_amended :
    (∀ arc : Arc, (parse_mini drawZero "").toOption.map (fun p => p arc) = some [])
    ∧ tokenize "0 % 3" = [⟨TokType.NUMBER, "0", 0⟩, ⟨TokType.NUMBER, "3", 4⟩]
    ∧ parse_mini drawZero "0 * c"
        = Except.error "Expected NUMBER, got NOTE at position 4"
    ∧ parse_mini drawZero "[0 >"
        = Except.error "Expected RBRACK, got RANGLE at position 3" := by
  refine ⟨fun arc => rfl, by decide, rfl, rfl⟩

/-- C10: for every note-name string whose octave digits are omitted,
the mini-notation atom site and the scale-root site resolve it with the
same default octave 3; in particular the bare atom c and the root of
c:major both resolve to MIDI 48. -/
theorem default_octave_uniform (s : String) (l : Char) (acc : List Char)
    (h : tokenize_note s = Except.ok (some (l, acc, none))) :
    mini_note_resolve s = scale_root_resolve s
    ∧ mini_note_resolve "c" = Except.ok 48
    ∧ (parse_scale "c:major").map (fun r => r.2) = Except.ok 48
    ∧ parse_mini drawZero "c" = Except.ok (Pattern.pure (PValue.note 48)) := by
  exact ⟨rfl, rfl, rfl, rfl⟩

/-- Witness for default_octave_uniform at the bare note name c. -/
theorem default_octave_uniform_witness :
    tokenize_note "c" = Except.ok (some ('c', [], none))
    ∧ (mini_note_resolve "c" = scale_root_resolve "c"
       ∧ mini_note_resolve "c" = Except.ok 48
       ∧ (parse_scale "c:major").map (fun r => r.2) = Except.ok 48
       ∧ parse_mini drawZero "c" = Except.ok (Pattern.pure (PValue.note 48))) :=
  ⟨rfl, default_octave_uniform "c" 'c' [] rfl⟩

/-- C7 (amended): slowcat answers every query arc entirely from the
single child indexed by the floor of the arc start modulo the child
count, queried with the unmodified arc; in particular a cycle is
answered by its own child only when the arc starts in that cycle. -/
theorem slowcat_first_cycle_child (pats : List (Pattern α)) (arc : Arc)
    (h : pats ≠ []) :
    slowcat pats arc
      = (pats.getD ((⌊arc.1⌋ % (pats.length : Int)).toNat) Pattern.silence) arc := by
  match pats with
  | [] => exact absurd rfl h
  | [p] =>
    simp [slowcat, Int.emod_one]
  | p :: q :: rest => rfl

/-- Witness for slowcat_first_cycle_child on a two-child list. -/
theorem slowcat_first_cycle_child_witness :
    ([Pattern.pure (PValue.int 0), Pattern.pure (PValue.int 1)] : List (Pattern PValue)) ≠ []
    ∧ slowcat [Pattern.pure (PValue.int 0), Pattern.pure (PValue.int 1)] ((0 : ℚ), 1)
      = (([Pattern.pure (PValue.int 0), Pattern.pure (PValue.int 1)] :
          List (Pattern PValue)).getD
          ((⌊(0 : ℚ)⌋ % (([Pattern.pure (PValue.int 0), Pattern.pure (PValue.int 1)] :
            List (Pattern PValue)).length : Int)).toNat) Pattern.silence) ((0 : ℚ), 1) :=
  ⟨List.cons_ne_nil _ _,
   slowcat_first_cycle_child
     [Pattern.pure (PValue.int 0), Pattern.pure (PValue.int 1)] ((0 : ℚ), 1)
     (List.cons_ne_nil _ _)⟩

/-- C7 counterexample: over the two-cycle arc from 0 to 2,
slowcat of (pure 0, pure 1) answers both cycles from child 0, which
differs from the claimed per-cycle reading in which cycle 1 is answered
by child 1. -/
theorem slowcat_multicycle_counterexample :
    slowcat [Pattern.pure (PValue.int 0), Pattern.pure (PValue.int 1)] ((0 : ℚ), 2)
      = [⟨PValue.int 0, some ((0 : ℚ), 1), ((0 : ℚ), 1)⟩,
         ⟨PValue.int 0, some ((1 : ℚ), 2), ((1 : ℚ), 2)⟩]
    ∧ slowcatPerCycle [Pattern.pure (PValue.int 0), Pattern.pure (PValue.int 1)] ((0 : ℚ), 2)
      = [⟨PValue.int 0, some ((0 : ℚ), 1), ((0 : ℚ), 1)⟩,
         ⟨PValue.int 1, some ((1 : ℚ), 2), ((1 : ℚ), 2)⟩]
    ∧ ¬ slowcat [Pattern.pure (PValue.int 0), Pattern.pure (PValue.int 1)] ((0 : ℚ), 2)
        = slowcatPerCycle [Pattern.pure (PValue.int 0), Pattern.pure (PValue.int 1)]
            ((0 : ℚ), 2) := by
  have hfloor0 : ⌊(0 : ℚ)⌋ = 0 := by norm_num
  have hpure0 :
      Pattern.pure (PValue.int 0) ((0 : ℚ), 2)
        = [⟨PValue.int 0, some ((0 : ℚ), 1), ((0 : ℚ), 1)⟩,
           ⟨PValue.int 0, some ((1 : ℚ), 2), ((1 : ℚ), 2)⟩] := by
    norm_num [Pattern.pure, floatEqInt_two]
    norm_num [(by decide : (2 : ℤ).toNat = 2), (by decide : List.range 2 = [0, 1]),
      List.flatMap_cons, List.flatMap_nil, List.filterMap_cons]
  have hleft :
      slowcat [Pattern.pure (PValue.int 0), Pattern.pure (PValue.int 1)] ((0 : ℚ), 2)
        = [⟨PValue.int 0, some ((0 : ℚ), 1), ((0 : ℚ), 1)⟩,
           ⟨PValue.int 0, some ((1 : ℚ), 2), ((1 : ℚ), 2)⟩] := by
    show (([Pattern.pure (PValue.int 0), Pattern.pure (PValue.int 1)] :
        List (Pattern PValue)).getD ((⌊(0 : ℚ)⌋ % (2 : Int)).toNat) Pattern.silence)
        ((0 : ℚ), 2) = _
    rw [hfloor0]
    exact hpure0
  have hpure1 :
      Pattern.pure (PValue.int 1) ((1 : ℚ), 2)
        = [⟨PValue.int 1, some ((1 : ℚ), 2), ((1 : ℚ), 2)⟩] := by
    norm_num [Pattern.pure, floatEqInt_two]
    norm_num [(by decide : (2 : ℤ) - 1 = 1), (by decide : (1 : ℤ).toNat = 1),
      (by decide : List.range 1 = [0]), List.flatMap_cons, List.flatMap_nil,
      List.filterMap_cons]
  have hpure0a :
      Pattern.pure (PValue.int 0) ((0 : ℚ), 1)
        = [⟨PValue.int 0, some ((0 : ℚ), 1), ((0 : ℚ), 1)⟩] := by
    norm_num [Pattern.pure, floatEqInt_one]
    norm_num [(by decide : (1 : ℤ).toNat = 1), (by decide : List.range 1 = [0]),
      List.flatMap_cons, List.flatMap_nil, List.filterMap_cons]
  have hright :
      slowcatPerCycle [Pattern.pure (PValue.int 0), Pattern.pure (PValue.int 1)] ((0 : ℚ), 2)
        = [⟨PValue.int 0, some ((0 : ℚ), 1), ((0 : ℚ), 1)⟩,
           ⟨PValue.int 1, some ((1 : ℚ), 2), ((1 : ℚ), 2)⟩] := by
    norm_num [slowcatPerCycle]
    norm_num [(by decide : (2 : ℤ).toNat = 2), (by decide : List.range 2 = [0, 1]),
      List.flatMap_cons, List.flatMap_nil]
    norm_num [hpure0a, hpure1]
  refine ⟨hleft, hright, ?_⟩
  rw [hleft, hright]
  simp

/-- Evaluation of one `tick` call in the running, already-latched case:
the state advances by elapsed-steps times the increment derived from the
latched cycle length, the new argument is recorded as pending, and the
latch is replaced exactly when the integer part of the phase grows. -/
theorem tick_normal (p : Pattern PValue) (s : PlaybackState)
    (ct ppq lt : Int) (L : ℚ) (cb : ℚ)
    (hrun : s.running = true) (hlast : s.lastTick = some lt)
    (hlatch : s.latchedCycleBeats = some L)
    (hd : ¬ truncInt ((ppq : ℚ) * L) = 0) :
    Pattern.tick p s ct ppq cb =
      some (let inc : ℚ := 1 / ((truncInt ((ppq : ℚ) * L) : Int) : ℚ)
            let ph : ℚ := if 0 < ct - lt then s.phase + inc * ((ct - lt : Int) : ℚ) else s.phase
            ({ s with
                pendingCycleBeats := some (processCycleBeats cb),
                lastTick := if 0 < ct - lt then some ct else some lt,
                phase := ph,
                latchedCycleBeats :=
                  if ⌊s.phase⌋ < ⌊ph⌋ then some (processCycleBeats cb) else some L },
             (p (ph, ph + inc)).filter (fun e => e.hasOnset && !(e.value.isRest)))) := by
  unfold Pattern.tick
  rw [hrun]
  simp only [Bool.true_eq_false, if_false]
  rw [hlast]
  simp only [hlast, hlatch, Option.getD_some, hd, if_false]
  split
  · split
    · simp [hrun]
    · simp [hrun]
  · split
    · simp [hrun]
    · simp [hrun]

/-- C3 counterexample: with ppq 1 and latched cycle length 5/2 (above
the 0.01 clamp floor, product with ppq not an integer), one elapsed
step advances the phase by 1/2 = 1/int(1 * 5/2), not by the claimed
exact 1/(1 * 5/2) = 2/5. -/
theorem tick_increment_truncated_counterexample :
    ((Pattern.tick Pattern.silence ⟨true, 0, some 0, some (5/2), some (5/2)⟩ 1 1 (5/2)).map
      (fun r => r.1.phase)) = some (1/2)
    ∧ ¬ ((1 : ℚ)/2 = 1 / ((1 : ℚ) * (5/2))) := by
  constructor
  · norm_num [Pattern.tick, processCycleBeats, clampCycleBeats, snapCycleBeats, pyRound,
      truncInt, Pattern.silence]
  · norm_num

/-- C3 (amended): on a running, already-latched state, the per-step
phase increment is 1 over the integer truncation of
unitsPerBeat times latchedCycleLength; it equals the exact rational
1/(unitsPerBeat times latchedCycleLength) whenever that product is an
integer.  The hypotheses hpq, hLq and hPq require unitsPerBeat, the
latched length and their product to be exactly representable doubles
(pyFloat fixed points): the source multiplies them in float (line
2026), and only under these hypotheses does that float product equal
the exact product truncated here — e.g. ppq 3 with latched length the
double nearest 2/3 gives float product exactly 2.0 while the exact
product is just below 2. -/
theorem tick_increment_formula (p : Pattern PValue) (s : PlaybackState)
    (ct ppq lt : Int) (L : ℚ) (d : Int) (cb : ℚ)
    (hrun : s.running = true) (hlast : s.lastTick = some lt)
    (hlatch : s.latchedCycleBeats = some L)
    (hpq : pyFloat ((ppq : ℚ)) = some ((ppq : ℚ)))
    (hLq : pyFloat L = some L)
    (hPq : pyFloat ((ppq : ℚ) * L) = some ((ppq : ℚ) * L))
    (hd : truncInt ((ppq : ℚ) * L) = d) (hdne : ¬ d = 0) (hlt : lt < ct) :
    ((Pattern.tick p s ct ppq cb).map (fun r => r.1.phase))
      = some (s.phase + ((ct - lt : Int) : ℚ) * (1 / (d : ℚ)))
    ∧ (((ppq : ℚ) * L) = (d : ℚ) →
        ((Pattern.tick p s ct ppq cb).map (fun r => r.1.phase))
          = some (s.phase + ((ct - lt : Int) : ℚ) / ((ppq : ℚ) * L))) := by
  have hne : ¬ truncInt ((ppq : ℚ) * L) = 0 := by rw [hd]; exact hdne
  rw [tick_normal p s ct ppq lt L cb hrun hlast hlatch hne]
  have hpos : 0 < ct - lt := by omega
  constructor
  · simp only [Option.map_some', hd, if_pos hpos]
    congr 1
    push_cast
    ring
  · intro hint
    simp only [Option.map_some', hd, if_pos hpos]
    congr 1
    rw [hint]
    push_cast
    ring

/-- Witness for tick_increment_formula: ppq 1, latched length 4, two
elapsed steps from tick 0 to tick 2. -/
theorem tick_increment_formula_witness :
    pyFloat ((1 : ℚ)) = some ((1 : ℚ)) ∧ pyFloat ((4 : ℚ)) = some ((4 : ℚ))
    ∧ pyFloat ((1 : ℚ) * 4) = some ((1 : ℚ) * 4)
    ∧ truncInt ((1 : ℚ) * 4) = 4 ∧ ¬ (4 : Int) = 0 ∧ (0 : Int) < 2
    ∧ (((Pattern.tick Pattern.silence ⟨true, 0, some 0, some 4, some 4⟩ 2 1 4).map
          (fun r => r.1.phase))
        = some ((0 : ℚ) + ((2 - 0 : Int) : ℚ) * (1 / ((4 : Int) : ℚ)))
       ∧ (((1 : ℚ) * 4) = ((4 : Int) : ℚ) →
          ((Pattern.tick Pattern.silence ⟨true, 0, some 0, some 4, some 4⟩ 2 1 4).map
            (fun r => r.1.phase))
            = some ((0 : ℚ) + ((2 - 0 : Int) : ℚ) / ((1 : ℚ) * 4)))) :=
  ⟨by simp [pyFloat_one], by simp [pyFloat_four],
   by rw [show ((1 : ℚ) * 4) = (4 : ℚ) by norm_num]; simp [pyFloat_four],
   by norm_num [truncInt], by decide, by decide,
   tick_increment_formula Pattern.silence ⟨true, 0, some 0, some 4, some 4⟩ 2 1 0 4 4 4
     rfl rfl rfl
     (by rw [show (((1 : Int) : ℚ)) = (1 : ℚ) by norm_num]; simp [pyFloat_one])
     (by simp [pyFloat_four])
     (by rw [show (((1 : Int) : ℚ) * 4) = (4 : ℚ) by norm_num]; simp [pyFloat_four])
     (by norm_num [truncInt]) (by decide) (by decide)⟩

/-- C1: on a running, already-latched state, the advance of the phase,
the advance of the step counter and the returned events do not depend
on the cycle-beats argument of the call; the argument is recorded as
the pending cycle length on every call; and the latched cycle length is
replaced by that pending value exactly on a call whose phase advance
increases the integer part of the phase, otherwise it stays. -/
theorem tick_latches_at_boundary (p : Pattern PValue) (s : PlaybackState)
    (ct ppq lt : Int) (L : ℚ) (cb cb2 : ℚ)
    (hrun : s.running = true) (hlast : s.lastTick = some lt)
    (hlatch : s.latchedCycleBeats = some L)
    (hd : ¬ truncInt ((ppq : ℚ) * L) = 0) :
    (((Pattern.tick p s ct ppq cb).map (fun r => (r.1.phase, r.1.lastTick, r.2)))
        = ((Pattern.tick p s ct ppq cb2).map (fun r => (r.1.phase, r.1.lastTick, r.2))))
    ∧ ((Pattern.tick p s ct ppq cb).map (fun r => r.1.pendingCycleBeats)
        = some (some (processCycleBeats cb)))
    ∧ (∀ s2 evs, Pattern.tick p s ct ppq cb = some (s2, evs) →
        s2.latchedCycleBeats
          = if ⌊s.phase⌋ < ⌊s2.phase⌋ then some (processCycleBeats cb) else some L) := by
  rw [tick_normal p s ct ppq lt L cb hrun hlast hlatch hd,
      tick_normal p s ct ppq lt L cb2 hrun hlast hlatch hd]
  refine ⟨rfl, rfl, ?_⟩
  intro s2 evs h2
  injection h2 with hpair
  injection hpair with hs he
  subst hs
  rfl

/-- Witness for tick_latches_at_boundary: ppq 1, latched length 4,
one elapsed step, with the cycle-beats argument changing from 4 to 7. -/
theorem tick_latches_at_boundary_witness :
    (true = true) ∧ ¬ truncInt ((1 : ℚ) * 4) = 0
    ∧ ((((Pattern.tick Pattern.silence ⟨true, 0, some 0, some 4, some 4⟩ 1 1 4).map
          (fun r => (r.1.phase, r.1.lastTick, r.2)))
        = ((Pattern.tick Pattern.silence ⟨true, 0, some 0, some 4, some 4⟩ 1 1 7).map
          (fun r => (r.1.phase, r.1.lastTick, r.2))))
       ∧ ((Pattern.tick Pattern.silence ⟨true, 0, some 0, some 4, some 4⟩ 1 1 4).map
            (fun r => r.1.pendingCycleBeats) = some (some (processCycleBeats 4)))
       ∧ (∀ s2 evs,
            Pattern.tick Pattern.silence ⟨true, 0, some 0, some 4, some 4⟩ 1 1 4
              = some (s2, evs) →
            s2.latchedCycleBeats
              = if ⌊(0 : ℚ)⌋ < ⌊s2.phase⌋ then some (processCycleBeats 4) else some 4)) :=
  ⟨rfl, by norm_num [truncInt],
   tick_latches_at_boundary Pattern.silence ⟨true, 0, some 0, some 4, some 4⟩ 1 1 0 4 4 7
     rfl rfl rfl (by norm_num [truncInt])⟩

/-- Mapping a function and then a pointwise left inverse over a list
gives the list back. -/
theorem map_map_id_of_inv {β : Type} (g h : β → β) (hgh : ∀ x, h (g x) = x)
    (l : List β) : (l.map g).map h = l := by
  induction l with
  | nil => rfl
  | cons e t ih => simp [hgh, ih]

/-- C6 (amended): fast with a nonzero factor followed by slow with the
same factor is the identity on query results, for every pattern and
arc, whenever the factor and its reciprocal both convert to finite
nonzero doubles -- excluding the factors whose conversion underflows to
0.0 (silencing the pattern) or overflows (raising OverflowError in the
zero test). -/
theorem fast_slow_roundtrip (f : ℚ) (p : Pattern α) (arc : Arc) (hf : ¬ f = 0)
    (hff : ¬ pyFloat f = none) (hf0 : ¬ pyFloat f = some 0)
    (hgf : ¬ pyFloat (1 / f) = none) (hg0 : ¬ pyFloat (1 / f) = some 0) :
    (Pattern.slow f (Pattern.fast f p)).map (fun q => q arc) = some (p arc) := by
  have hbf : floatEqZero f = false := by
    rw [floatEqZero, floatEqInt]
    rw [show (((0 : Int) : ℚ)) = (0 : ℚ) from by norm_num, pyFloat_zero]
    obtain ⟨a, ha⟩ := Option.ne_none_iff_exists'.mp hff
    rw [ha]
    have hane : ¬ a = 0 := fun hc => hf0 (by rw [ha, hc])
    simp [hane]
  have hbg : floatEqZero (1 / f) = false := by
    rw [floatEqZero, floatEqInt]
    rw [show (((0 : Int) : ℚ)) = (0 : ℚ) from by norm_num, pyFloat_zero]
    obtain ⟨a, ha⟩ := Option.ne_none_iff_exists'.mp hgf
    rw [ha]
    have hane : ¬ a = 0 := fun hc => hg0 (by rw [ha, hc])
    simp [hane]
  obtain ⟨w, hw⟩ := Option.ne_none_iff_exists'.mp hgf
  rw [Pattern.slow, fracDiv, if_neg hf]
  show ((match pyFloat (1 / f) with
    | none => none
    | some _ => some (Pattern.fast (1 / f) (Pattern.fast f p))) :
      Option (Pattern α)).map (fun q => q arc) = some (p arc)
  rw [hw]
  simp only [Option.map_some']
  congr 1
  show Pattern.fast (1 / f) (Pattern.fast f p) arc = p arc
  unfold Pattern.fast
  simp only [hbf, hbg, Bool.false_eq_true, if_false]
  have hx : ∀ x : ℚ, x * (1 / f) * f = x := by
    intro x
    field_simp
  have hy : ∀ x : ℚ, x / f / (1 / f) = x := by
    intro x
    field_simp
  rw [hx arc.1, hx arc.2]
  simp only [Prod.mk.eta]
  refine map_map_id_of_inv _ _ ?_ (p arc)
  intro e
  cases e with
  | mk v w pr =>
    have hz : ∀ x : ℚ, x / f * f = x := fun x => div_mul_cancel₀ x hf
    cases w with
    | none => simp [hy, hz, Prod.ext_iff]
    | some wp => simp [hy, hz, Prod.ext_iff]

/-- Witness for fast_slow_roundtrip at factor 2 on a pure pattern. -/
theorem fast_slow_roundtrip_witness :
    (¬ (2 : ℚ) = 0 ∧ ¬ pyFloat (2 : ℚ) = none ∧ ¬ pyFloat (2 : ℚ) = some 0
      ∧ ¬ pyFloat (1 / (2 : ℚ)) = none ∧ ¬ pyFloat (1 / (2 : ℚ)) = some 0)
    ∧ (Pattern.slow 2 (Pattern.fast 2 (Pattern.pure (PValue.int 0)))).map
        (fun q => q ((0 : ℚ), 1))
      = some (Pattern.pure (PValue.int 0) ((0 : ℚ), 1)) :=
  ⟨⟨by norm_num, by simp [pyFloat_two], by simp [pyFloat_two],
    by rw [pyFloat_half]; exact Option.some_ne_none _, by rw [pyFloat_half]; norm_num⟩,
   fast_slow_roundtrip 2 (Pattern.pure (PValue.int 0)) ((0 : ℚ), 1) (by norm_num)
     (by simp [pyFloat_two]) (by simp [pyFloat_two])
     (by rw [pyFloat_half]; exact Option.some_ne_none _) (by rw [pyFloat_half]; norm_num)⟩

/-- slow returns none whenever the double conversion of the nonzero
factor's reciprocal overflows (the source raises OverflowError in the
zero test of the inner fast). -/
theorem slow_none_of_overflow {α : Type} (f : ℚ) (p : Pattern α) (hf : ¬ f = 0)
    (hov : pyFloat (1 / f) = none) : Pattern.slow f p = none := by
  rw [Pattern.slow, fracDiv, if_neg hf]
  simp only [Option.some_bind, hov]

/-- C6 counterexample: the factor 1/10^400 is a nonzero rational, yet
its float conversion is 0.0, so fast degenerates to silence; slow of
the same factor forms the exact reciprocal 10^400, whose conversion in
the inner zero test overflows (none), so the round-trip neither
reproduces the original events nor returns any result. -/
theorem fast_slow_roundtrip_counterexample :
    ¬ (1 / 10 ^ 400 : ℚ) = 0
    ∧ Pattern.fast (1 / 10 ^ 400 : ℚ) (Pattern.pure (PValue.int 0)) ((0 : ℚ), 1) = []
    ∧ (Pattern.slow (1 / 10 ^ 400 : ℚ)
        (Pattern.fast (1 / 10 ^ 400 : ℚ) (Pattern.pure (PValue.int 0)))).map
          (fun q => q ((0 : ℚ), 1)) = none
    ∧ ¬ (Pattern.slow (1 / 10 ^ 400 : ℚ)
        (Pattern.fast (1 / 10 ^ 400 : ℚ) (Pattern.pure (PValue.int 0)))).map
          (fun q => q ((0 : ℚ), 1))
        = some (Pattern.pure (PValue.int 0) ((0 : ℚ), 1)) := by
  have hfast : Pattern.fast (1 / 10 ^ 400 : ℚ) (Pattern.pure (PValue.int 0)) ((0 : ℚ), 1)
      = [] := by
    unfold Pattern.fast
    rw [floatEqZero_tiny]
    simp [Pattern.silence]
  have hov : pyFloat ((1 : ℚ) / (1 / 10 ^ 400)) = none := by
    rw [show (1 : ℚ) / (1 / 10 ^ 400) = 10 ^ 400 from by norm_num]
    exact pyFloat_huge
  have hslow := slow_none_of_overflow (1 / 10 ^ 400 : ℚ)
    (Pattern.fast (1 / 10 ^ 400 : ℚ) (Pattern.pure (PValue.int 0))) (by norm_num) hov
  refine ⟨by norm_num, hfast, by rw [hslow]; rfl, by rw [hslow]; simp⟩

/-- Count of an injectively-tagged, guarded filterMap over a
duplicate-free integer list: one when the tag is in the list and passes
the guard, zero otherwise. -/
theorem count_filterMap_guard {β : Type} [DecidableEq β] (g : Int → β)
    (P : Int → Prop) [DecidablePred P] (f : Int → Option β)
    (hf : ∀ c, f c = if P c then some (g c) else none)
    (hg : Function.Injective g) :
    ∀ l : List Int, l.Nodup → ∀ n : Int,
      (l.filterMap f).count (g n) = if n ∈ l ∧ P n then 1 else 0 := by
  intro l
  induction l with
  | nil => simp
  | cons c t ih =>
    intro hnd n
    rw [List.nodup_cons] at hnd
    obtain ⟨hcn, hnd2⟩ := hnd
    rw [List.filterMap_cons, hf c]
    by_cases hPc : P c
    · rw [if_pos hPc]
      rw [List.count_cons, ih hnd2 n]
      by_cases hnc : n = c
      · subst hnc
        have hmem : ¬ (n ∈ t ∧ P n) := fun hq => hcn hq.1
        simp [hmem, hPc, hcn]
      · have hne2 : ¬ g c = g n := fun hq => hnc ((hg hq).symm)
        simp [hne2, hnc]
    · rw [if_neg hPc]
      rw [ih hnd2 n]
      by_cases hnc : n = c
      · subst hnc
        simp [hPc]
      · simp [hnc]

/-- Membership in the covered-cycle list of a query: exactly the
integers from the floor of the start (inclusive) to the cycle ceiling
of the end (exclusive). -/
theorem mem_cycleList (cs ce n : Int) :
    (n ∈ (List.range (ce - cs).toNat).map (fun k : Nat => cs + (k : Int)))
      ↔ cs ≤ n ∧ n < ce := by
  constructor
  · intro hmem
    rw [List.mem_map] at hmem
    obtain ⟨k, hk, hkn⟩ := hmem
    rw [List.mem_range] at hk
    have hkn2 : cs + (k : Int) = n := hkn
    omega
  · intro hb
    obtain ⟨h1, h2⟩ := hb
    rw [List.mem_map]
    refine ⟨(n - cs).toNat, ?_, ?_⟩
    · rw [List.mem_range]
      omega
    · show cs + ((n - cs).toNat : Int) = n
      omega

/-- The covered-cycle list of a query has no duplicates. -/
theorem nodup_cycleList (cs ce : Int) :
    ((List.range (ce - cs).toNat).map (fun k : Nat => cs + (k : Int))).Nodup := by
  have hinj : Function.Injective (fun k : Nat => cs + (k : Int)) := by
    intro a b hab
    simpa using hab
  exact (List.nodup_range _).map hinj

/-- A cycle that overlaps the arc with positive width lies between the
floor of the start and the cycle ceiling of the end. -/
theorem cycle_bounds_of_overlap (s e : ℚ) (n : Int)
    (hov : max s (n : ℚ) < min e ((n : ℚ) + 1)) :
    ⌊s⌋ ≤ n ∧ n < (if e = (⌊e⌋ : ℚ) then ⌊e⌋ else ⌊e⌋ + 1) := by
  have hs : s < (n : ℚ) + 1 :=
    lt_of_le_of_lt (le_max_left _ _) (lt_of_lt_of_le hov (min_le_right _ _))
  have hn : (n : ℚ) < e :=
    lt_of_le_of_lt (le_max_right _ _) (lt_of_lt_of_le hov (min_le_left _ _))
  constructor
  · have hlt : ⌊s⌋ < n + 1 := by
      refine Int.floor_lt.mpr ?_
      push_cast
      exact hs
    omega
  · by_cases he : e = (⌊e⌋ : ℚ)
    · rw [if_pos he]
      rw [he] at hn
      exact_mod_cast hn
    · rw [if_neg he]
      have hle : n ≤ ⌊e⌋ := Int.le_floor.mpr (le_of_lt hn)
      omega

/-- C5 (amended): over a valid arc, pure returns exactly one event for
each unit cycle the arc overlaps with positive width — with the queried
value, whole equal to the full cycle, and part equal to the intersection
of arc and cycle — and nothing else, also across multiple cycles and for
negative start times; provided the arc end and its floor convert to
finite doubles and the source's float-mediated integrality test
arc[1] == int(arc[1]) agrees with exact equality there (the hypothesis
htest; it fails for ends like (10^16+1)/10^16 or 1/10^400 whose doubles
collide with an integer's). -/
theorem pure_one_event_per_cycle {α : Type} [DecidableEq α] (v : α) (s e : ℚ)
    (h : s ≤ e) (hfe : ¬ pyFloat e = none) (hffl : ¬ pyFloat ((⌊e⌋ : ℚ)) = none)
    (htest : floatEqInt e ⌊e⌋ = decide (e = (⌊e⌋ : ℚ))) :
    (∀ n : Int,
      ((Pattern.pure v (s, e)).count
          ⟨v, some ((n : ℚ), (n : ℚ) + 1), (max s (n : ℚ), min e ((n : ℚ) + 1))⟩)
        = if max s (n : ℚ) < min e ((n : ℚ) + 1) then 1 else 0)
    ∧ (∀ ev ∈ Pattern.pure v (s, e), ∃ n : Int,
        max s (n : ℚ) < min e ((n : ℚ) + 1)
        ∧ ev = ⟨v, some ((n : ℚ), (n : ℚ) + 1), (max s (n : ℚ), min e ((n : ℚ) + 1))⟩) := by
  have hrw : Pattern.pure v (s, e)
      = ((List.range ((if e = (⌊e⌋ : ℚ) then ⌊e⌋ else ⌊e⌋ + 1) - ⌊s⌋).toNat).map
          (fun k : Nat => ⌊s⌋ + (k : Int))).filterMap
          (fun c : Int => if max s (c : ℚ) < min e ((c : ℚ) + 1) then
              some ⟨v, some ((c : ℚ), (c : ℚ) + 1), (max s (c : ℚ), min e ((c : ℚ) + 1))⟩
            else none) := by
    have hb : Pattern.pure v (s, e)
        = ((List.range ((if floatEqInt e ⌊e⌋ then ⌊e⌋ else ⌊e⌋ + 1) - ⌊s⌋).toNat).map
            (fun k : Nat => ⌊s⌋ + (k : Int))).filterMap
            (fun c : Int => if max s (c : ℚ) < min e ((c : ℚ) + 1) then
                some ⟨v, some ((c : ℚ), (c : ℚ) + 1), (max s (c : ℚ), min e ((c : ℚ) + 1))⟩
              else none) := rfl
    rw [hb, htest]
    have hite : (if decide (e = (⌊e⌋ : ℚ)) = true then (⌊e⌋ : Int) else ⌊e⌋ + 1)
        = (if e = (⌊e⌋ : ℚ) then (⌊e⌋ : Int) else ⌊e⌋ + 1) := by
      by_cases hq : e = (⌊e⌋ : ℚ)
      · rw [if_pos (decide_eq_true hq), if_pos hq]
      · rw [if_neg (fun hd => hq (of_decide_eq_true hd)), if_neg hq]
    rw [hite]
  have hg : Function.Injective (fun c : Int =>
      (⟨v, some ((c : ℚ), (c : ℚ) + 1), (max s (c : ℚ), min e ((c : ℚ) + 1))⟩ : Event α)) := by
    intro a b hab
    simp only [Event.mk.injEq, Option.some.injEq, Prod.mk.injEq] at hab
    exact_mod_cast hab.2.1.1
  constructor
  · intro n
    rw [hrw]
    have hcnt := count_filterMap_guard
      (fun c : Int =>
        (⟨v, some ((c : ℚ), (c : ℚ) + 1), (max s (c : ℚ), min e ((c : ℚ) + 1))⟩ : Event α))
      (fun c : Int => max s (c : ℚ) < min e ((c : ℚ) + 1))
      (fun c : Int => if max s (c : ℚ) < min e ((c : ℚ) + 1) then
          some ⟨v, some ((c : ℚ), (c : ℚ) + 1), (max s (c : ℚ), min e ((c : ℚ) + 1))⟩
        else none)
      (fun c => rfl) hg
      ((List.range ((if e = (⌊e⌋ : ℚ) then ⌊e⌋ else ⌊e⌋ + 1) - ⌊s⌋).toNat).map
        (fun k : Nat => ⌊s⌋ + (k : Int)))
      (nodup_cycleList _ _) n
    refine Eq.trans hcnt ?_
    by_cases hov : max s (n : ℚ) < min e ((n : ℚ) + 1)
    · rw [if_pos hov,
        if_pos ⟨(mem_cycleList _ _ _).mpr (cycle_bounds_of_overlap s e n hov), hov⟩]
    · rw [if_neg hov, if_neg (fun hq => hov hq.2)]
  · intro ev hev
    rw [hrw] at hev
    rw [List.mem_filterMap] at hev
    obtain ⟨c, hcmem, hc⟩ := hev
    by_cases hPc : max s (c : ℚ) < min e ((c : ℚ) + 1)
    · rw [if_pos hPc] at hc
      exact ⟨c, hPc, (Option.some.inj hc).symm⟩
    · rw [if_neg hPc] at hc
      exact absurd hc (by simp)

/-- Witness for pure_one_event_per_cycle on the arc from -1/2 to 2. -/
theorem pure_one_event_per_cycle_witness :
    ((- 1/2 : ℚ) ≤ 2 ∧ ¬ pyFloat (2 : ℚ) = none
      ∧ ¬ pyFloat ((⌊(2 : ℚ)⌋ : ℚ)) = none
      ∧ floatEqInt (2 : ℚ) ⌊(2 : ℚ)⌋ = decide ((2 : ℚ) = (⌊(2 : ℚ)⌋ : ℚ)))
    ∧ ((∀ n : Int,
        ((Pattern.pure (PValue.int 5) ((- 1/2 : ℚ), 2)).count
            ⟨PValue.int 5, some ((n : ℚ), (n : ℚ) + 1),
             (max (- 1/2 : ℚ) (n : ℚ), min (2 : ℚ) ((n : ℚ) + 1))⟩)
          = if max (- 1/2 : ℚ) (n : ℚ) < min (2 : ℚ) ((n : ℚ) + 1) then 1 else 0)
       ∧ (∀ ev ∈ Pattern.pure (PValue.int 5) ((- 1/2 : ℚ), 2), ∃ n : Int,
          max (- 1/2 : ℚ) (n : ℚ) < min (2 : ℚ) ((n : ℚ) + 1)
          ∧ ev = ⟨PValue.int 5, some ((n : ℚ), (n : ℚ) + 1),
              (max (- 1/2 : ℚ) (n : ℚ), min (2 : ℚ) ((n : ℚ) + 1))⟩)) :=
  ⟨⟨by norm_num, by simp [pyFloat_two],
    by rw [show ((⌊(2 : ℚ)⌋ : Int) : ℚ) = (2 : ℚ) by norm_num]; simp [pyFloat_two],
    by rw [show (⌊(2 : ℚ)⌋ : Int) = (2 : Int) by norm_num]; simp [floatEqInt_two]⟩,
   pure_one_event_per_cycle (PValue.int 5) (- 1/2 : ℚ) 2 (by norm_num)
     (by simp [pyFloat_two])
     (by rw [show ((⌊(2 : ℚ)⌋ : Int) : ℚ) = (2 : ℚ) by norm_num]; simp [pyFloat_two])
     (by rw [show (⌊(2 : ℚ)⌋ : Int) = (2 : Int) by norm_num]; simp [floatEqInt_two])⟩

/-- C5 counterexample: over the valid arc from 0 to 1/10^400 the unit
cycle starting at 0 is overlapped with positive width, yet pure returns
no event at all: the arc end compares equal to the int 0 through the
source's float-mediated test (1/10^400 underflows to 0.0), so the
positively-overlapped final cycle is dropped. -/
theorem pure_drops_final_cycle_counterexample :
    (0 : ℚ) ≤ 1 / 10 ^ 400
    ∧ max (0 : ℚ) (((0 : Int) : ℚ)) < min (1 / 10 ^ 400 : ℚ) (((0 : Int) : ℚ) + 1)
    ∧ Pattern.pure (PValue.int 0) ((0 : ℚ), 1 / 10 ^ 400) = []
    ∧ (Pattern.pure (PValue.int 0) ((0 : ℚ), 1 / 10 ^ 400)).count
        ⟨PValue.int 0, some (((0 : Int) : ℚ), ((0 : Int) : ℚ) + 1),
         (max (0 : ℚ) (((0 : Int) : ℚ)),
          min (1 / 10 ^ 400 : ℚ) (((0 : Int) : ℚ) + 1))⟩ = 0 := by
  have hfl : (⌊(1 / 10 ^ 400 : ℚ)⌋ : Int) = 0 := by
    rw [Int.floor_eq_zero_iff]
    constructor
    · positivity
    · norm_num
  have hb : Pattern.pure (PValue.int 0) ((0 : ℚ), 1 / 10 ^ 400)
      = ((List.range ((if floatEqInt (1 / 10 ^ 400 : ℚ) ⌊(1 / 10 ^ 400 : ℚ)⌋
            then ⌊(1 / 10 ^ 400 : ℚ)⌋ else ⌊(1 / 10 ^ 400 : ℚ)⌋ + 1)
            - ⌊(0 : ℚ)⌋).toNat).map (fun k : Nat => ⌊(0 : ℚ)⌋ + (k : Int))).filterMap
          (fun c : Int =>
            if max (0 : ℚ) (c : ℚ) < min (1 / 10 ^ 400 : ℚ) ((c : ℚ) + 1) then
              some ⟨PValue.int 0, some ((c : ℚ), (c : ℚ) + 1),
                (max (0 : ℚ) (c : ℚ), min (1 / 10 ^ 400 : ℚ) ((c : ℚ) + 1))⟩
            else none) := rfl
  have hmain : Pattern.pure (PValue.int 0) ((0 : ℚ), 1 / 10 ^ 400) = [] := by
    rw [hb, hfl, floatEqInt_tiny_zero]
    norm_num
  refine ⟨by positivity, by norm_num, hmain, by rw [hmain]; rfl⟩

/-- Filtering out one key leaves lookups of any other key unchanged. -/
theorem lookup_filter_other {α : Type} (a b : Nat) (hne : ¬ b = a) :
    ∀ l : List (Nat × α),
      (l.filter (fun p => !(p.1 = a))).lookup b = l.lookup b := by
  intro l
  induction l with
  | nil => rfl
  | cons hd tl ih =>
    obtain ⟨k, v⟩ := hd
    rw [List.filter_cons]
    by_cases hk : k = a
    · rw [if_neg (by simp [hk])]
      rw [ih]
      have hbk : (b == k) = false := by
        subst hk
        simp [hne]
      simp [List.lookup, hbk]
    · rw [if_pos (by simp [hk])]
      by_cases hbk : b = k
      · subst hbk
        simp [List.lookup]
      · simp [List.lookup, hbk, ih]

/-- One release call on a registry whose voice is active, written as an
explicit record. -/
theorem release_step {α : Type} (t : Int) (rr : BusRegistry α) (v : Nat) (ch : α)
    (hv : rr.active.lookup v = some ch) :
    rr.release v t = { rr with
      active := rr.active.filter (fun p => !(p.1 = v)),
      history := (match rr.history with
        | (t0, batch) :: restB =>
          if t0 = t then (t0, batch ++ [ch]) :: restB
          else (t, [ch]) :: (t0, batch) :: restB
        | [] => [(t, [ch])]).take rr.historyLimit } := by
  unfold BusRegistry.release
  rw [hv]

/-- C9: releasing three distinct active chains at the same release step,
starting from a within-limit history whose newest batch is not at that
step, groups them into one new most-recent-first batch; last 0 returns
that batch; and the history is the new batch consed onto the old
history truncated to the limit, so the oldest batches are evicted first
and at most the configured number of batches is retained. -/
theorem release_groups_and_evicts {α : Type} (r : BusRegistry α) (a b c : Nat)
    (t : Int) (ca cb cc : α)
    (ha : r.active.lookup a = some ca) (hb : r.active.lookup b = some cb)
    (hc : r.active.lookup c = some cc)
    (hba : ¬ b = a) (hcb : ¬ c = b) (hca : ¬ c = a)
    (hlim : 1 ≤ r.historyLimit)
    (hhead : ∀ t0 batch rest, r.history = (t0, batch) :: rest → ¬ t0 = t) :
    (((r.release a t).release b t).release c t).history
      = ((t, [ca, cb, cc]) :: r.history).take r.historyLimit
    ∧ (((r.release a t).release b t).release c t).last 0 = [ca, cb, cc]
    ∧ (((r.release a t).release b t).release c t).history.length ≤ r.historyLimit := by
  obtain ⟨m, hm⟩ : ∃ m, r.historyLimit = m + 1 := ⟨r.historyLimit - 1, by omega⟩
  have e1active : (r.release a t).active = r.active.filter (fun p => !(p.1 = a)) := by
    rw [release_step t r a ca ha]
  have e1lim : (r.release a t).historyLimit = r.historyLimit := by
    rw [release_step t r a ca ha]
  have e1 : (r.release a t).history = (t, [ca]) :: r.history.take m := by
    rw [release_step t r a ca ha]
    cases hh : r.history with
    | nil => simp [hm]
    | cons hd rest =>
      obtain ⟨t0, batch⟩ := hd
      simp only [if_neg (hhead t0 batch rest hh)]
      simp [hm]
  have hb1 : (r.release a t).active.lookup b = some cb := by
    rw [e1active, lookup_filter_other a b hba, hb]
  have e2active : ((r.release a t).release b t).active
      = ((r.release a t).active.filter (fun p => !(p.1 = b))) := by
    rw [release_step t _ b cb hb1]
  have e2lim : ((r.release a t).release b t).historyLimit = r.historyLimit := by
    rw [release_step t _ b cb hb1, e1lim]
  have e2 : ((r.release a t).release b t).history
      = (t, [ca, cb]) :: r.history.take m := by
    rw [release_step t _ b cb hb1, e1, e1lim]
    simp [hm, List.take_take]
  have hc2 : ((r.release a t).release b t).active.lookup c = some cc := by
    rw [e2active, lookup_filter_other b c hcb, e1active, lookup_filter_other a c hca, hc]
  have e3 : (((r.release a t).release b t).release c t).history
      = (t, [ca, cb, cc]) :: r.history.take m := by
    rw [release_step t _ c cc hc2, e2, e2lim]
    simp [hm, List.take_take]
  refine ⟨?_, ?_, ?_⟩
  · rw [e3, hm, List.take_succ_cons]
  · rw [BusRegistry.last, e3]
    simp
  · rw [e3, hm]
    simp only [List.length_cons, List.length_take]
    omega

/-- Witness for release_groups_and_evicts: three chains released at
step 5 on a limit-2 registry already holding two batches; the oldest
batch is evicted. -/
theorem release_groups_and_evicts_witness :
    (([(1, 100), (2, 200), (3, 300)] : List (Nat × Nat)).lookup 1 = some 100
     ∧ ([(1, 100), (2, 200), (3, 300)] : List (Nat × Nat)).lookup 2 = some 200
     ∧ ([(1, 100), (2, 200), (3, 300)] : List (Nat × Nat)).lookup 3 = some 300
     ∧ (1 : Nat) ≤ 2
     ∧ (∀ t0 batch rest,
          ([((0 : Int), [7]), ((-1 : Int), [8])] : List (Int × List Nat))
            = (t0, batch) :: rest → ¬ t0 = 5))
    ∧ ((((BusRegistry.mk [(1, 100), (2, 200), (3, 300)]
            [((0 : Int), [7]), ((-1 : Int), [8])] 2).release 1 5).release 2 5).release 3 5).history
        = ((5, [100, 200, 300]) :: [((0 : Int), [7]), ((-1 : Int), [8])]).take 2
    ∧ ((((BusRegistry.mk [(1, 100), (2, 200), (3, 300)]
            [((0 : Int), [7]), ((-1 : Int), [8])] 2).release 1 5).release 2 5).release 3 5).last 0
        = [100, 200, 300]
    ∧ ((((BusRegistry.mk [(1, 100), (2, 200), (3, 300)]
            [((0 : Int), [7]), ((-1 : Int), [8])] 2).release 1 5).release 2 5).release 3 5).history.length
        ≤ 2 := by
  refine ⟨⟨by decide, by decide, by decide, by decide, ?_⟩, ?_⟩
  · intro t0 batch rest hh
    injection hh with h1 h2
    injection h1 with h3 h4
    omega
  · exact (release_groups_and_evicts
      (BusRegistry.mk [(1, 100), (2, 200), (3, 300)] [((0 : Int), [7]), ((-1 : Int), [8])] 2)
      1 2 3 5 100 200 300 (by decide) (by decide) (by decide)
      (by decide) (by decide) (by decide) (by decide)
      (by
        intro t0 batch rest hh
        injection hh with h1 h2
        injection h1 with h3 h4
        omega))

end Trap
